import Mathlib

/-!
Verification of the connector-userid-ts time-series retrieval and
transformation pipeline (DataAccess / EventsHandler connectors).

The development shallowly embeds the TypeScript source:

* JavaScript runtime values that flow through the pipeline are modelled by
  `JSValue` (null, finite numbers as rationals, strings); a JS object is an
  insertion-ordered association list `Obj` with unique keys, and absence of a
  key models the JS value `undefined`.
* `parseFloat` is modelled by `jsParseFloat`; for string inputs a plain
  decimal-literal parser `strToRat` stands in for the JS grammar.
* Stateful fetch loops (`getDp`, `_influxdb`, `getLoadEntities`) are modelled
  as structurally recursive functions over a finite script of server
  responses; one script entry answers one HTTP request, so every run is
  total by construction, and the run records the number of requests made and
  the sleeps performed.
* Query orchestrators are split, exactly as in the source, into a body that
  can fail (the try block, an `Except String` computation) and the exported
  function that applies the source's catch handler to the body's result.
* Numeric timestamps are embedded as integers (`Int`); the JS
  `String(time).length` digit test is modelled by the decimal digit count,
  which agrees with JS for the integer epoch values the connector handles.
* Date parsing (`new Date(string)`) and the current clock are parameters
  (`dparse : String -> Option Int`, `now : Int`) of every definition that
  needs them.
-/

set_option autoImplicit false

namespace Connector

/-- A JavaScript runtime value as it appears in the connector's data rows:
`null`, a (finite) number, or a string. `undefined` is modelled by key
absence in `Obj`, not by a constructor. -/
inductive JSValue where
  | vNull : JSValue
  | vNum : ℚ → JSValue
  | vStr : String → JSValue
  deriving DecidableEq, Repr

/-- JS truthiness for the values of `JSValue`: `null`, `0` and `""` are
falsy, everything else is truthy. -/
def truthy : JSValue → Bool
  | .vNull => false
  | .vNum q => q ≠ 0
  | .vStr s => s ≠ ""

/-- The natural number denoted by a digit string. -/
def digitsToNat (l : List Char) : ℕ :=
  l.foldl (fun n c => n * 10 + (c.toNat - 48)) 0

/-- A non-empty all-digit character list. -/
def allDigits (l : List Char) : Bool :=
  !l.isEmpty && l.all (fun c => c.isDigit)

/-- Parse an unsigned decimal literal (digits with an optional fractional
part) from its characters. -/
def decCore (l : List Char) : Option ℚ :=
  let ip := l.takeWhile (fun c => c ≠ '.')
  match l.dropWhile (fun c => c ≠ '.') with
  | [] => if allDigits ip then some ((digitsToNat ip : ℤ) : ℚ) else none
  | _ :: fp =>
    if allDigits ip && allDigits fp then
      some ((digitsToNat ip : ℚ) + mkRat (digitsToNat fp) (10 ^ fp.length))
    else none

/-- Parse a plain decimal literal (optional minus sign, digits, optional
fractional part). Models the successful cases of JS `parseFloat` on the
literals the connector actually feeds it. -/
def strToRat (s : String) : Option ℚ :=
  match s.data with
  | '-' :: rest => (decCore rest).map (fun q => -q)
  | l => decCore l

/-- JS `parseFloat` on a `JSValue`: numbers parse to themselves, strings go
through `strToRat`, `null` does not parse (NaN). `none` models NaN. -/
def jsParseFloat : JSValue → Option ℚ
  | .vNull => none
  | .vNum q => some q
  | .vStr s => strToRat s

/-- A JS object: insertion-ordered key/value pairs.  The connector's rows,
pivoted rows and the alias map are all values of this type. -/
abbrev Obj := List (String × JSValue)

/-- Property read `o[k]`: `none` models `undefined`. -/
def getK (o : Obj) (k : String) : Option JSValue :=
  (o.find? (fun p => p.1 = k)).map (fun p => p.2)

/-- Does the object have key `k`. -/
def hasK (o : Obj) (k : String) : Bool :=
  o.any (fun p => p.1 = k)

/-- Property write `o[k] = v`: updates in place when the key exists
(keeping its position, as JS objects do), otherwise appends. -/
def setK (o : Obj) (k : String) (v : JSValue) : Obj :=
  if hasK o k then o.map (fun p => if p.1 = k then (k, v) else p)
  else o ++ [(k, v)]

/-- Property delete `delete o[k]`. -/
def delK (o : Obj) (k : String) : Obj :=
  o.filter (fun p => p.1 ≠ k)

/-- `Object.keys(o)` in insertion order. -/
def keysOf (o : Obj) : List String :=
  o.map Prod.fst

/-- The value at `k`, defaulting to `null`; used only where the key is known
to be present. -/
def vAt (o : Obj) (k : String) : JSValue :=
  (getK o k).getD .vNull

/-- Truthiness of the property read `o[k]` (absent keys are falsy). -/
def truthyAt (o : Obj) (k : String) : Bool :=
  match getK o k with
  | some v => truthy v
  | none => false

theorem getK_nil (k : String) : getK [] k = none := rfl

theorem getK_cons (p : String × JSValue) (o : Obj) (k : String) :
    getK (p :: o) k = if p.1 = k then some p.2 else getK o k := by
  by_cases h : p.1 = k <;> simp [getK, List.find?, h]

theorem hasK_iff_mem_keys (o : Obj) (k : String) :
    hasK o k = true ↔ k ∈ keysOf o := by
  induction o with
  | nil => simp [hasK, keysOf]
  | cons p o ih =>
    by_cases h : p.1 = k <;>
      simp [hasK, keysOf, List.any_cons, h, ← ih, hasK] <;> tauto

theorem getK_isSome_of_mem_keys {o : Obj} {k : String} (h : k ∈ keysOf o) :
    (getK o k).isSome := by
  induction o with
  | nil => simp [keysOf] at h
  | cons p o ih =>
    rw [getK_cons]
    by_cases hp : p.1 = k
    · simp [hp]
    · simp only [keysOf, List.map_cons, List.mem_cons] at h
      rcases h with h | h
      · exact absurd h.symm hp
      · simp [hp, ih h]

theorem getK_eq_vAt_of_mem_keys {o : Obj} {k : String} (h : k ∈ keysOf o) :
    getK o k = some (vAt o k) := by
  have := getK_isSome_of_mem_keys h
  cases hg : getK o k with
  | none => rw [hg] at this; simp at this
  | some v => simp [vAt, hg]

theorem getK_eq_none_of_not_mem_keys {o : Obj} {k : String}
    (hk : k ∉ keysOf o) : getK o k = none := by
  induction o with
  | nil => rfl
  | cons p o ih =>
    simp only [keysOf, List.map_cons, List.mem_cons] at hk
    push_neg at hk
    rw [getK_cons]
    have hp : ¬ p.1 = k := fun hc => hk.1 hc.symm
    simp [hp, ih hk.2]

theorem mem_keys_of_getK_eq_some {o : Obj} {k : String} {v : JSValue}
    (h : getK o k = some v) : k ∈ keysOf o := by
  by_contra hk
  rw [getK_eq_none_of_not_mem_keys hk] at h
  cases h

theorem getK_append (o1 o2 : Obj) (x : String) :
    getK (o1 ++ o2) x = match getK o1 x with
      | some v => some v
      | none => getK o2 x := by
  induction o1 with
  | nil => simp [getK_nil]
  | cons p o ih =>
    rw [List.cons_append, getK_cons, getK_cons]
    by_cases hp : p.1 = x <;> simp [hp, ih]

theorem getK_mapSet_self (o : Obj) (k : String) (v : JSValue)
    (h : hasK o k = true) :
    getK (o.map (fun p => if p.1 = k then (k, v) else p)) k = some v := by
  induction o with
  | nil => simp [hasK] at h
  | cons p o ih =>
    by_cases hp : p.1 = k
    · simp [getK_cons, hp]
    · simp only [List.map_cons, hp, if_false]
      rw [getK_cons]
      simp only [hp, if_false]
      exact ih (by simpa [hasK, hp] using h)

theorem getK_mapSet_ne (o : Obj) (k x : String) (v : JSValue) (hx : x ≠ k) :
    getK (o.map (fun p => if p.1 = k then (k, v) else p)) x = getK o x := by
  induction o with
  | nil => rfl
  | cons p o ih =>
    by_cases hp : p.1 = k
    · simp only [List.map_cons, hp, if_true]
      rw [getK_cons, getK_cons, hp]
      simp [Ne.symm hx, ih]
    · simp only [List.map_cons, hp, if_false]
      rw [getK_cons, getK_cons]
      by_cases hpx : p.1 = x <;> simp [hpx, ih]

theorem getK_setK_self (o : Obj) (k : String) (v : JSValue) :
    getK (setK o k v) k = some v := by
  unfold setK
  by_cases h : hasK o k
  · simp only [h, if_true]; exact getK_mapSet_self o k v h
  · simp only [h, Bool.false_eq_true, if_false]
    rw [getK_append]
    have hn : getK o k = none := by
      cases hg : getK o k with
      | none => rfl
      | some w =>
        exact absurd ((hasK_iff_mem_keys o k).2 (mem_keys_of_getK_eq_some hg)) (by simp [h])
    simp [hn, getK_cons]

theorem getK_setK_ne (o : Obj) (k x : String) (v : JSValue) (hx : x ≠ k) :
    getK (setK o k v) x = getK o x := by
  unfold setK
  by_cases h : hasK o k
  · simp only [h, if_true]; exact getK_mapSet_ne o k x v hx
  · simp only [h, Bool.false_eq_true, if_false]
    rw [getK_append]
    cases hg : getK o x with
    | none => simp [getK_cons, Ne.symm hx, getK_nil]
    | some w => simp

theorem getK_delK (o : Obj) (k x : String) :
    getK (delK o k) x = if x = k then none else getK o x := by
  induction o with
  | nil => simp [delK, getK_nil]
  | cons p o ih =>
    by_cases hp : p.1 = k
    · have hd : delK (p :: o) k = delK o k := by
        simp [delK, List.filter_cons, hp]
      rw [hd, ih, getK_cons]
      by_cases hxk : x = k
      · simp [hxk]
      · have hpx : ¬ p.1 = x := fun hc => hxk (by rw [← hc, hp])
        simp [hxk, hpx]
    · have hd : delK (p :: o) k = p :: delK o k := by
        simp [delK, List.filter_cons, hp]
      rw [hd, getK_cons, getK_cons, ih]
      by_cases hpx : p.1 = x
      · have hxk : ¬ x = k := fun hc => hp (by rw [hpx, hc])
        simp [hpx, hxk]
      · simp [hpx]

theorem keysOf_setK (o : Obj) (k : String) (v : JSValue) :
    keysOf (setK o k v) = if k ∈ keysOf o then keysOf o else keysOf o ++ [k] := by
  unfold setK
  by_cases h : hasK o k
  · rw [if_pos h, if_pos ((hasK_iff_mem_keys o k).1 h)]
    unfold keysOf
    rw [List.map_map]
    apply List.map_congr_left
    intro p _
    by_cases hp : p.1 = k <;> simp [hp]
  · rw [if_neg h, if_neg (fun hm => h ((hasK_iff_mem_keys o k).2 hm))]
    simp [keysOf]

/-! ## Constants (src/utils/constants.ts) -/

/-- Maximum retry attempts for the REST pagination loops. -/
def MAX_RETRIES : ℕ := 15

/-- REST retry delays, the literal values passed to the millisecond sleep
helper: index 0 for the first five failures, index 1 afterwards. -/
def RETRY_DELAY : ℕ × ℕ := (2, 4)

/-- Maximum retry attempts for the bulk time-series loop (local constant in
DataAccess.«_influxdb»). -/
def MAX_RETRIES_INFLUX : ℕ := 8

/-- Bulk time-series retry delays in milliseconds (local constant in
DataAccess.«_influxdb»). -/
def RETRY_DELAY_INFLUX : ℕ × ℕ := (2000, 10000)

/-! ## Device metadata (DeviceMetadata, SensorInfo, params) -/

/-- One entry of a per-sensor calibration parameter list
(elements of DeviceMetadata.params values). -/
structure SensorParam where
  paramName : String
  paramValue : JSValue
  deriving DecidableEq, Repr

/-- One entry of DeviceMetadata.sensors. -/
structure SensorInfo where
  sensorId : String
  sensorName : String
  deriving DecidableEq, Repr

/-- The parts of DeviceMetadata the cleaning pipeline reads: the sensor list
and the per-sensor calibration parameter map (a JS object keyed by sensor
id, so keys are unique; we keep the first binding). -/
structure Metadata where
  sensors : List SensorInfo
  params : List (String × List SensorParam)
  deriving DecidableEq, Repr

/-- `metadata.params[s]` (own-key lookup). -/
def lookupParams (md : Metadata) (s : String) : Option (List SensorParam) :=
  (md.params.find? (fun p => p.1 = s)).map (fun p => p.2)

/-! ## Calibration stage (getCleanedTable step 3) -/

/-- The mutable extraction state of the parameter scan: slope m (default 1),
intercept c (default 0) and the optional clamps (none models both the
initial null and a NaN parse, which the source's isNaN guard skips). -/
structure CalAcc where
  m : ℚ
  c : ℚ
  minv : Option ℚ
  maxv : Option ℚ
  deriving DecidableEq, Repr

/-- One iteration of the parameter scan.  The slope assignment
m = parseFloat(v) || 1 turns both NaN and 0 into 1; the intercept
assignment c = parseFloat(v) || 0 turns NaN into 0. -/
def updateParam (acc : CalAcc) (p : SensorParam) : CalAcc :=
  if p.paramName = "m" then
    { acc with m := match jsParseFloat p.paramValue with
        | some q => if q = 0 then 1 else q
        | none => 1 }
  else if p.paramName = "c" then
    { acc with c := (jsParseFloat p.paramValue).getD 0 }
  else if p.paramName = "min" then
    { acc with minv := jsParseFloat p.paramValue }
  else if p.paramName = "max" then
    { acc with maxv := jsParseFloat p.paramValue }
  else acc

/-- Scan the sensor's parameter list; a later entry for the same name
overwrites an earlier one, as the source's for-loop does. -/
def extractParams (ps : List SensorParam) : CalAcc :=
  ps.foldl updateParam { m := 1, c := 0, minv := none, maxv := none }

/-- The calibration arithmetic: slope/intercept, then the lower clamp,
then the upper clamp (each only when its parameter parsed). -/
def calApply (acc : CalAcc) (raw : ℚ) : ℚ :=
  let x := acc.m * raw + acc.c
  let x1 := match acc.minv with
    | some lo => max x lo
    | none => x
  match acc.maxv with
    | some hi => min x1 hi
    | none => x1

/-- Calibrate one row: applies only when the row's sensor is a truthy
string with a parameter list in the metadata and the row's value is
non-null and parses as a number; otherwise the row passes through.
(A non-string sensor value never matches the string-keyed params object.) -/
def calRow (md : Metadata) (row : Obj) : Obj :=
  match getK row "sensor" with
  | some (.vStr s) =>
    if s ≠ "" then
      match lookupParams md s with
      | some ps =>
        let acc := extractParams ps
        (match getK row "value" with
         | some v =>
           if v ≠ .vNull then
             match jsParseFloat v with
             | some raw => setK row "value" (.vNum (calApply acc raw))
             | none => row
           else row
         | none => row)
      | none => row
    else row
  | _ => row

/-- The calibration stage: a total map over the rows (the stage never
raises). -/
def calStage (md : Metadata) (rows : List Obj) : List Obj :=
  rows.map (calRow md)

/-! ## Alias stage (getCleanedTable step 5) -/

/-- Build the alias map, a JS object from sensor id to sensor name
(a later sensors entry with the same id overwrites the earlier one). -/
def aliasMapOf (md : Metadata) : Obj :=
  md.sensors.foldl (fun m si => setK m si.sensorId (.vStr si.sensorName)) []

/-- The truthy alias for key `k`, if any: `aliasMap[k]` must exist and be a
non-empty string for the source's truthiness guards to fire. -/
def amapAt (am : Obj) (k : String) : Option String :=
  match getK am k with
  | some (.vStr a) => if a ≠ "" then some a else none
  | _ => none

/-- Does the rename loop move key `k`?  Reserved keys sensor, time and
timestamp are excluded; otherwise the key is renamed exactly when it has a
truthy alias. -/
def renCond (am : Obj) (k : String) : Option String :=
  if k = "sensor" ∨ k = "time" ∨ k = "timestamp" then none
  else amapAt am k

/-- One iteration of the rename loop: move a renamed key's original value
to its alias key (`newRow[aliasMap[key]] = row[key]`), then delete the
original key. -/
def aliasStep (am row : Obj) (acc : Obj) (k : String) : Obj :=
  match renCond am k with
  | some a => delK (setK acc a (vAt row k)) k
  | none => acc

/-- The copied row after the sensor-field rewrite: a truthy string sensor
field with a truthy alias is replaced by the alias. -/
def sensorRewrite (am : Obj) (row : Obj) : Obj :=
  match getK row "sensor" with
  | some (.vStr s) =>
    if s ≠ "" then
      match amapAt am s with
      | some a => setK row "sensor" (.vStr a)
      | none => row
    else row
  | _ => row

/-- Alias one row: first rewrite a truthy string `sensor` field when it has
a truthy alias, then walk the original row's keys, moving each renamed
key's (original) value to its alias key and deleting the original key. -/
def aliasRow (am : Obj) (row : Obj) : Obj :=
  (keysOf row).foldl (aliasStep am row) (sensorRewrite am row)

/-- The alias stage: a map over the rows. -/
def aliasStage (am : Obj) (rows : List Obj) : List Obj :=
  rows.map (aliasRow am)

/-! ## Pivot stage (getCleanedTable step 6) -/

/-- The grouping key of a row: `row.timestamp || row.time` (the timestamp
field when truthy, otherwise whatever sits under time); `none` models
`undefined` when both are missing/falsy-and-missing. -/
def rowKey (r : Obj) : Option JSValue :=
  match getK r "timestamp" with
  | some v => if truthy v then some v else getK r "time"
  | none => getK r "time"

/-- Insertion-order deduplication: the model of `[...new Set(l)]`. -/
def firstSeen {α : Type} [DecidableEq α] : List α → List α
  | [] => []
  | a :: l => a :: firstSeen (l.filter (fun b => b ≠ a))
termination_by l => l.length
decreasing_by
  simp only [List.length_cons]
  exact Nat.lt_succ_of_le (List.length_filter_le _ _)

/-- The column contribution of a row, if any: a truthy string sensor name
together with the row's value, which must be present (it may be null). -/
def contribOf (r : Obj) : Option (String × JSValue) :=
  match getK r "sensor" with
  | some (.vStr s) => if s ≠ "" ∧ hasK r "value" then some (s, vAt r "value") else none
  | _ => none

/-- One iteration of the row-accumulation loop of the pivot. -/
def pivotStep (acc : Obj) (r : Obj) : Obj :=
  match contribOf r with
  | some (s, v) => setK acc s v
  | none => acc

/-- The pivoted row for grouping key `t`: start from the object holding the
key under timestamp (no key at all when the grouping value is undefined)
and fold the rows sharing the key. -/
def pivotRowAt (rows : List Obj) (t : Option JSValue) : Obj :=
  (rows.filter (fun r => rowKey r = t)).foldl pivotStep
    (match t with
     | some v => [("timestamp", v)]
     | none => [])

/-- The pivot stage: one output row per distinct grouping key, in
first-seen order. -/
def pivotStage (rows : List Obj) : List Obj :=
  (firstSeen (rows.map rowKey)).map (pivotRowAt rows)

/-! ## Time normalizer (DataAccess.timeToUnix) -/

/-- Specification helper: the contribution of row `r` to column `s`, if
any (the row contributes to `s` when its contribution names `s`). -/
def contribAt (r : Obj) (s : String) : Option JSValue :=
  match contribOf r with
  | some (s2, v) => if s2 = s then some v else none
  | none => none

/-- Specification helper: the value of column `s` after folding the rows —
the value of the last row contributing to `s`. -/
def lastContrib : List Obj → String → Option JSValue
  | [], _ => none
  | r :: rs, s =>
    match lastContrib rs s with
    | some v => some v
    | none => contribAt r s

/-- Specification helper: the sensors contributing a column, in row
order. -/
def contribSensors (rs : List Obj) : List String :=
  rs.filterMap (fun r => (contribOf r).map Prod.fst)

/-- The time argument of timeToUnix: null/undefined, a number (embedded as
an integer; every time the connector passes is an integer epoch), a string,
or a Date object carried by its epoch value. -/
inductive TimeIn where
  | tNull : TimeIn
  | tNum : ℤ → TimeIn
  | tStr : String → TimeIn
  | tDate : ℤ → TimeIn
  deriving DecidableEq, Repr

/-- The number of characters of `String(n)` for a positive integer `n`
(its decimal digit count, via the decimal rendering of core). -/
def numDigits (n : ℤ) : ℕ :=
  (Nat.toDigits 10 n.toNat).length

/-- timeToUnix: null gives the current time; a number is accepted only when
positive with a more-than-ten-character decimal form (milliseconds, not
seconds); a string must parse as a date (`dparse` models `new Date`);
a Date object contributes its epoch value directly. -/
def timeToUnix (now : ℤ) (dparse : String → Option ℤ) : TimeIn → Except String ℤ
  | .tNull => .ok now
  | .tNum n =>
    if n ≤ 0 ∨ numDigits n ≤ 10 then
      .error "Unix timestamp must be a positive integer in milliseconds, not seconds."
    else .ok n
  | .tStr s =>
    match dparse s with
    | some e => .ok e
    | none => .error "Invalid date string"
  | .tDate e => .ok e

/-! ## Fetch loops

Each loop is modelled over a finite script of server behaviours, one entry
per HTTP request; running out of script while the loop would continue is
the distinguished `starved` outcome (a model artefact: the scripts used in
the theorems are always long enough).  Every run is total by construction,
so termination of the embedded loops is structural. -/

/-- The outcome of a fetch loop.  `maxRetries` models the thrown
max-retries error (it carries no data: the loop never returns a partial
result), `typeErr` models the TypeError thrown when the per-sensor loop
reads `.end` off a missing cursor object. -/
inductive FetchRes (R : Type) where
  | ok : List R → FetchRes R
  | maxRetries : FetchRes R
  | typeErr : FetchRes R
  | starved : FetchRes R
  deriving DecidableEq, Repr

/-- A fetch loop run: its outcome, the number of requests issued and the
arguments passed to the millisecond sleep helper, in order. -/
structure FetchOut (R : Type) where
  result : FetchRes R
  calls : ℕ
  sleeps : List ℕ
  deriving DecidableEq, Repr

/-- The per-sensor cursor of getDp: the object literal with end and limit
fields (either may be absent or null, modelled by none). -/
structure DpCursor where
  endVal : Option ℤ
  limit : Option ℤ
  deriving DecidableEq, Repr

/-- The while-condition of the getDp loop: `cursor.end` is truthy. -/
def dpCont (c : DpCursor) : Bool :=
  match c.endVal with
  | some e => e ≠ 0
  | none => false

/-- One scripted server behaviour for a getDp request: a network/transport
failure, or a JSON response carrying the success flag, the optional data
array and the optional cursor object. -/
inductive DpStep (R : Type) where
  | net : DpStep R
  | resp : Bool → Option (List R) → Option DpCursor → DpStep R
  deriving DecidableEq, Repr

/-- The loop state of the getDp per-sensor loop. -/
structure DpState (R : Type) where
  cursor : DpCursor
  retry : ℕ
  acc : List R
  calls : ℕ
  sleeps : List ℕ
  deriving DecidableEq, Repr

/-- The getDp per-sensor cursor loop.  A truthy server success flag is
thrown and caught by the same catch as a transport failure, so both take
the retry path: increment the counter, throw past the loop once it reaches
MAX_RETRIES, otherwise sleep the tiered delay (the counter is cumulative
for the sensor, never reset on success) and retry the same cursor.  A
successful response appends its truthy data array and replaces the whole
cursor; a response without a cursor object makes the next while-condition
read `.end` off undefined, a TypeError thrown outside the inner try. -/
def dpRun {R : Type} : List (DpStep R) → DpState R → FetchOut R
  | [], st =>
    if dpCont st.cursor then ⟨.starved, st.calls, st.sleeps⟩
    else ⟨.ok st.acc, st.calls, st.sleeps⟩
  | .net :: rest, st =>
    -- transport failure: the catch block
    if dpCont st.cursor then
      if st.retry + 1 ≥ MAX_RETRIES then ⟨.maxRetries, st.calls + 1, st.sleeps⟩
      else dpRun rest ⟨st.cursor, st.retry + 1, st.acc, st.calls + 1,
        st.sleeps ++ [if st.retry + 1 > 5 then RETRY_DELAY.2 else RETRY_DELAY.1]⟩
    else ⟨.ok st.acc, st.calls, st.sleeps⟩
  | .resp true _ _ :: rest, st =>
    -- truthy success flag: thrown into the very same catch block
    if dpCont st.cursor then
      if st.retry + 1 ≥ MAX_RETRIES then ⟨.maxRetries, st.calls + 1, st.sleeps⟩
      else dpRun rest ⟨st.cursor, st.retry + 1, st.acc, st.calls + 1,
        st.sleeps ++ [if st.retry + 1 > 5 then RETRY_DELAY.2 else RETRY_DELAY.1]⟩
    else ⟨.ok st.acc, st.calls, st.sleeps⟩
  | .resp false data curOpt :: rest, st =>
    if dpCont st.cursor then
      let acc2 := match data with
        | some d => st.acc ++ d
        | none => st.acc
      (match curOpt with
       | some c => dpRun rest ⟨c, st.retry, acc2, st.calls + 1, st.sleeps⟩
       | none => ⟨.typeErr, st.calls + 1, st.sleeps⟩)
    else ⟨.ok st.acc, st.calls, st.sleeps⟩

/-- The initial getDp loop state for one sensor: cursor end = unixEnd,
limit = n. -/
def dpInit {R : Type} (unixEnd n : ℤ) : DpState R :=
  ⟨⟨some unixEnd, some n⟩, 0, [], 0, []⟩

/-- The bulk cursor of the influx loop: start and end fields. -/
structure InfluxCursor where
  startVal : Option ℤ
  endVal : Option ℤ
  deriving DecidableEq, Repr

/-- The while-condition of the influx loop, with optional chaining:
`cursor?.start && cursor?.end`. -/
def influxCont (c : Option InfluxCursor) : Bool :=
  match c with
  | none => false
  | some cc =>
    (match cc.startVal with
     | some s => s ≠ 0
     | none => false) &&
    (match cc.endVal with
     | some e => e ≠ 0
     | none => false)

/-- One scripted server behaviour for an influx request. -/
inductive InfluxStep (R : Type) where
  | net : InfluxStep R
  | resp : Bool → Option (List R) → Option InfluxCursor → InfluxStep R
  deriving DecidableEq, Repr

/-- The loop state of the influx loop; the cursor may be a missing object
(none), which the optional-chaining condition treats as falsy. -/
structure InfluxState (R : Type) where
  cursor : Option InfluxCursor
  retry : ℕ
  acc : List R
  calls : ℕ
  sleeps : List ℕ
  deriving DecidableEq, Repr

/-- The bulk time-series cursor loop of «_influxdb»: a truthy success flag
throws into the shared catch; data is appended only when it is an array;
the cursor is replaced wholesale (a falsy one ends the loop cleanly thanks
to optional chaining); the retry counter is cumulative and the delay tier
switches after the fifth failure. -/
def influxRun {R : Type} : List (InfluxStep R) → InfluxState R → FetchOut R
  | [], st =>
    if influxCont st.cursor then ⟨.starved, st.calls, st.sleeps⟩
    else ⟨.ok st.acc, st.calls, st.sleeps⟩
  | .net :: rest, st =>
    -- transport failure: the catch block
    if influxCont st.cursor then
      if st.retry + 1 < MAX_RETRIES_INFLUX then
        influxRun rest ⟨st.cursor, st.retry + 1, st.acc, st.calls + 1,
          st.sleeps ++ [if st.retry + 1 > 5 then RETRY_DELAY_INFLUX.2 else RETRY_DELAY_INFLUX.1]⟩
      else ⟨.maxRetries, st.calls + 1, st.sleeps⟩
    else ⟨.ok st.acc, st.calls, st.sleeps⟩
  | .resp true _ _ :: rest, st =>
    -- truthy success flag: thrown into the very same catch block
    if influxCont st.cursor then
      if st.retry + 1 < MAX_RETRIES_INFLUX then
        influxRun rest ⟨st.cursor, st.retry + 1, st.acc, st.calls + 1,
          st.sleeps ++ [if st.retry + 1 > 5 then RETRY_DELAY_INFLUX.2 else RETRY_DELAY_INFLUX.1]⟩
      else ⟨.maxRetries, st.calls + 1, st.sleeps⟩
    else ⟨.ok st.acc, st.calls, st.sleeps⟩
  | .resp false data curOpt :: rest, st =>
    if influxCont st.cursor then
      let acc2 := match data with
        | some d => st.acc ++ d
        | none => st.acc
      influxRun rest ⟨curOpt, st.retry, acc2, st.calls + 1, st.sleeps⟩
    else ⟨.ok st.acc, st.calls, st.sleeps⟩

/-- The initial influx loop state: cursor = start/end of the query. -/
def influxInit {R : Type} (startTime endTime : ℤ) : InfluxState R :=
  ⟨some ⟨some startTime, some endTime⟩, 0, [], 0, []⟩

/-- One scripted server behaviour for a getLoadEntities page request: a
transport failure, or a JSON body with the error flag, the optional data
array (spreading a missing one throws inside the try, hence the retry
path) and the reported total count. -/
inductive LoadStep (R : Type) where
  | net : LoadStep R
  | resp : Bool → Option (List R) → ℤ → LoadStep R
  deriving DecidableEq, Repr

/-- The loop state of the getLoadEntities pagination loop. -/
structure LoadState (R : Type) where
  pageCount : ℤ
  hasMore : Bool
  result : List R
  retry : ℕ
  calls : ℕ
  sleeps : List ℕ
  deriving DecidableEq, Repr

/-- The offset-walking loop of getLoadEntities: pages advance only on
success, the loop continues while the accumulated count is below the
server-reported total, and failures (transport, error flag, missing data
array) retry the same page with the shared tiered delay until MAX_RETRIES. -/
def loadRun {R : Type} : List (LoadStep R) → LoadState R → FetchOut R
  | [], st =>
    if st.hasMore then ⟨.starved, st.calls, st.sleeps⟩
    else ⟨.ok st.result, st.calls, st.sleeps⟩
  | .net :: rest, st =>
    -- transport failure: the catch block
    if st.hasMore then
      if st.retry + 1 < MAX_RETRIES then
        loadRun rest ⟨st.pageCount, st.hasMore, st.result, st.retry + 1, st.calls + 1,
          st.sleeps ++ [if st.retry + 1 > 5 then RETRY_DELAY.2 else RETRY_DELAY.1]⟩
      else ⟨.maxRetries, st.calls + 1, st.sleeps⟩
    else ⟨.ok st.result, st.calls, st.sleeps⟩
  | .resp true _ _ :: rest, st =>
    -- truthy error flag: thrown into the very same catch block
    if st.hasMore then
      if st.retry + 1 < MAX_RETRIES then
        loadRun rest ⟨st.pageCount, st.hasMore, st.result, st.retry + 1, st.calls + 1,
          st.sleeps ++ [if st.retry + 1 > 5 then RETRY_DELAY.2 else RETRY_DELAY.1]⟩
      else ⟨.maxRetries, st.calls + 1, st.sleeps⟩
    else ⟨.ok st.result, st.calls, st.sleeps⟩
  | .resp false none _ :: rest, st =>
    -- spreading a missing data array throws inside the try: the catch block
    if st.hasMore then
      if st.retry + 1 < MAX_RETRIES then
        loadRun rest ⟨st.pageCount, st.hasMore, st.result, st.retry + 1, st.calls + 1,
          st.sleeps ++ [if st.retry + 1 > 5 then RETRY_DELAY.2 else RETRY_DELAY.1]⟩
      else ⟨.maxRetries, st.calls + 1, st.sleeps⟩
    else ⟨.ok st.result, st.calls, st.sleeps⟩
  | .resp false (some d) totalCount :: rest, st =>
    if st.hasMore then
      let res2 := st.result ++ d
      loadRun rest ⟨st.pageCount + 1, (res2.length : ℤ) < totalCount, res2,
        st.retry, st.calls + 1, st.sleeps⟩
    else ⟨.ok st.result, st.calls, st.sleeps⟩

/-- The initial getLoadEntities loop state: page 1, hasMore = true. -/
def loadInit {R : Type} : LoadState R :=
  ⟨1, true, [], 0, 0, []⟩

/-! ## Sensor record normalizer (formatSensorData) -/

/-- A raw point object from the API, with possibly absent fields. -/
structure RawPoint where
  time : Option JSValue
  sensor : Option JSValue
  value : Option JSValue
  deriving DecidableEq, Repr

/-- One value of the raw payload map: an array of points, a single point
object, or anything else (skipped). -/
inductive RawVal where
  | arr : List RawPoint → RawVal
  | point : RawPoint → RawVal
  | other : RawVal
  deriving DecidableEq, Repr

/-- JS `a || b` restricted to our values: the left operand when truthy
(absent is falsy), otherwise the default. -/
def jsOr (v : Option JSValue) (d : JSValue) : JSValue :=
  match v with
  | some x => if truthy x then x else d
  | none => d

/-- Truthiness of an optional value (absent is falsy). -/
def truthyOpt (v : Option JSValue) : Bool :=
  match v with
  | some x => truthy x
  | none => false

/-- The normalized record built from a raw point: absent/falsy time and
sensor default to the empty string, an absent/falsy value defaults to null. -/
def mkPoint (p : RawPoint) : Obj :=
  [("time", jsOr p.time (.vStr "")),
   ("sensor", jsOr p.sensor (.vStr "")),
   ("value", jsOr p.value .vNull)]

/-- formatSensorData over the values of the payload (Object.values): array
entries contribute every element; a lone point object contributes only when
both its time and sensor are truthy; everything else is skipped. -/
def formatSensorData (vals : List RawVal) : List Obj :=
  vals.foldl
    (fun res v =>
      match v with
      | .arr l => res ++ l.map mkPoint
      | .point p => if truthyOpt p.time && truthyOpt p.sensor then res ++ [mkPoint p] else res
      | .other => res)
    []

/-! ## getCleanedTable -/

/-- Does the row's string field `k` belong to `sl` (the strict-equality
membership test of the sensor-list filter)? -/
def strFieldMem (row : Obj) (k : String) (sl : List String) : Bool :=
  match getK row k with
  | some (.vStr s) => s ∈ sl
  | _ => false

/-- Convert a row's time-ish value for the unix stage.  Integer-valued
numbers go through the numeric rule of timeToUnix; strings go through date
parsing; other shapes are outside the modelled domain and are mapped to the
error case. -/
def jsTimeToUnix (now : ℤ) (dparse : String → Option ℤ) (v : JSValue) : Except String ℤ :=
  match v with
  | .vNum q => if q.den = 1 then timeToUnix now dparse (.tNum q.num) else .error "Invalid date string"
  | .vStr s => timeToUnix now dparse (.tStr s)
  | .vNull => .error "Invalid date string"

/-- The unix stage of getCleanedTable for one row: convert a truthy
timestamp field, else a truthy time field; it can raise (the source calls
the throwing timeToUnix). -/
def unixRow (now : ℤ) (dparse : String → Option ℤ) (row : Obj) : Except String Obj :=
  if truthyAt row "timestamp" then
    (jsTimeToUnix now dparse (vAt row "timestamp")).map (fun t => setK row "timestamp" (.vNum t))
  else if truthyAt row "time" then
    (jsTimeToUnix now dparse (vAt row "time")).map (fun t => setK row "time" (.vNum t))
  else .ok row

/-- getCleanedTable: sensor-list filter, device filter, calibration, unix
conversion, alias substitution, pivot.  The deep JSON copy of the input is
the identity on our value domain. -/
def getCleanedTable (now : ℤ) (dparse : String → Option ℤ) (data : List Obj)
    (aliasF cal : Bool) (deviceId : Option String) (sensorList : List String)
    (unix : Bool) (metadata : Option Metadata) (pivotTable : Bool) :
    Except String (List Obj) :=
  let d1 := if sensorList.length > 0 then
      data.filter (fun row => strFieldMem row "sensor" sensorList || strFieldMem row "sensorId" sensorList)
    else data
  let d2 := match deviceId with
    | some did => d1.filter (fun row => getK row "deviceId" = some (.vStr did))
    | none => d1
  let d3 := if cal then
      match metadata with
      | some md => calStage md d2
      | none => d2
    else d2
  (if unix then d3.mapM (unixRow now dparse) else .ok d3).map (fun d4 =>
    let d5 := if aliasF then
        match metadata with
        | some md => aliasStage (aliasMapOf md) d4
        | none => d4
      else d4
    if pivotTable then pivotStage d5 else d5)

/-! ## Query orchestrators

Each orchestrator takes its collaborators as parameters: the current clock
`now`, the date parser `dparse`, the already-swallowed results of
getDeviceDetails (`devices`, none when it returned the empty object) and
getDeviceMetaData (`mdFetch`), and the scripted server behaviour of its own
endpoint.  The body is the try block; the exported function applies the
catch handler (log and return the empty result). -/

/-- Resolve the working sensor list as every data orchestrator does: use
the caller's list, else read the metadata, failing when the fetch failed or
the device has no sensors. -/
def resolveSensors (sensorList : Option (List String)) (mdFetch : Option Metadata) :
    Except String (List String × Option Metadata) :=
  match sensorList with
  | some sl => .ok (sl, none)
  | none =>
    match mdFetch with
    | some md =>
      let sl := md.sensors.map (fun s => s.sensorId)
      if sl.isEmpty then .error "No sensor data available." else .ok (sl, some md)
    | none => .error "Failed to fetch device metadata"

/-- The getDp try block: validate n, check the device against the account's
device list, resolve sensors, normalize the end time to epoch seconds, walk
one cursor loop per sensor (concatenating data in sensor order), then
format and clean without pivoting; empty collected data short-circuits to
the empty list. -/
def getDpBody (now : ℤ) (dparse : String → Option ℤ) (devices : Option (List String))
    (mdFetch : Option Metadata) (scripts : String → List (DpStep RawPoint))
    (deviceId : String) (sensorList : Option (List String)) (n : ℤ)
    (endTime : TimeIn) (aliasF cal unix : Bool) : Except String (List Obj) :=
  if n < 1 then .error "Parameter n must be at least 1"
  else match devices with
  | none => .error "Failed to fetch device details"
  | some ds =>
    if deviceId ∉ ds then .error "Device not added in account"
    else
      (resolveSensors sensorList mdFetch).bind (fun rs =>
        (timeToUnix now dparse endTime).bind (fun ms =>
          let unixEnd := Int.fdiv ms 1000
          (rs.1.foldlM
            (fun acc s =>
              (match (dpRun (scripts s) (dpInit unixEnd n)).result with
               | .ok d => .ok (acc ++ d)
               | .maxRetries => .error "Max retries reached while calling the endpoint"
               | .typeErr => .error "TypeError: cannot read properties of undefined"
               | .starved => .error "no scripted response" : Except String (List RawPoint)))
            ([] : List RawPoint)).bind (fun allData =>
            if allData.length > 0 then
              getCleanedTable now dparse (formatSensorData (allData.map .point))
                aliasF cal none rs.1 unix rs.2 false
            else .ok [])))

/-- getDp: the catch handler logs and resolves with the empty array. -/
def getDp (now : ℤ) (dparse : String → Option ℤ) (devices : Option (List String))
    (mdFetch : Option Metadata) (scripts : String → List (DpStep RawPoint))
    (deviceId : String) (sensorList : Option (List String)) (n : ℤ)
    (endTime : TimeIn) (aliasF cal unix : Bool) : List Obj :=
  match getDpBody now dparse devices mdFetch scripts deviceId sensorList n endTime aliasF cal unix with
  | .ok l => l
  | .error _ => []

/-- One scripted server behaviour for the single getFirstDp request: a
transport failure or a response with the success flag and the value at
index 0 of the body (none models indexing past it). -/
inductive FirstDpStep where
  | net : FirstDpStep
  | resp : Bool → Option (List (String × RawVal)) → FirstDpStep
  deriving Repr

/-- The getFirstDp try block: validate n, check the device, resolve
sensors, normalize the start time to epoch seconds, make the single
request, format and (when non-empty) clean without pivoting. -/
def getFirstDpBody (now : ℤ) (dparse : String → Option ℤ) (devices : Option (List String))
    (mdFetch : Option Metadata) (step : FirstDpStep)
    (deviceId : String) (sensorList : Option (List String)) (n : ℤ)
    (startTime : TimeIn) (aliasF cal unix : Bool) : Except String (List Obj) :=
  if n < 1 then .error "Parameter n must be at least 1"
  else match devices with
  | none => .error "Failed to fetch device details"
  | some ds =>
    if deviceId ∉ ds then .error "Device not added in account"
    else
      (resolveSensors sensorList mdFetch).bind (fun rs =>
        (timeToUnix now dparse startTime).map (fun ms => Int.fdiv ms 1000) |>.bind (fun _ =>
          match step with
          | .net => .error "request failed"
          | .resp true _ => .error "server error flag"
          | .resp false first =>
            let fd := formatSensorData ((first.getD []).map (fun p => p.2))
            if fd.length > 0 then
              getCleanedTable now dparse fd aliasF cal none rs.1 unix rs.2 false
            else .ok []))

/-- getFirstDp: the catch handler resolves with the empty array. -/
def getFirstDp (now : ℤ) (dparse : String → Option ℤ) (devices : Option (List String))
    (mdFetch : Option Metadata) (step : FirstDpStep)
    (deviceId : String) (sensorList : Option (List String)) (n : ℤ)
    (startTime : TimeIn) (aliasF cal unix : Bool) : List Obj :=
  match getFirstDpBody now dparse devices mdFetch step deviceId sensorList n startTime aliasF cal unix with
  | .ok l => l
  | .error _ => []

/-- The «_influxdb» try block: resolve the sensor list (fetching metadata
only when the caller supplied neither), run the bulk cursor loop, then
clean with the default pivoting when any data was collected. -/
def influxdbBody (now : ℤ) (dparse : String → Option ℤ) (mdFetch : Option Metadata)
    (script : List (InfluxStep Obj)) (startTime endTime : ℤ)
    (aliasF cal unix : Bool) (sensorList : List String) (metadata : Option Metadata) :
    Except String (List Obj) :=
  (if sensorList.isEmpty then
      (match metadata with
       | some md => .ok md
       | none =>
         match mdFetch with
         | some md => .ok md
         | none => .error "Failed to fetch device metadata" : Except String Metadata).bind (fun md =>
        let sl := md.sensors.map (fun s => s.sensorId)
        if sl.isEmpty then .error "No sensor data available." else .ok (sl, some md))
    else .ok (sensorList, metadata)).bind (fun rs =>
    match (influxRun script (influxInit startTime endTime)).result with
    | .ok allData =>
      if allData.length > 0 then
        getCleanedTable now dparse allData aliasF cal none rs.1 unix rs.2 true
      else .ok []
    | .maxRetries => .error "Max retries reached fetching data."
    | .typeErr => .error "TypeError"
    | .starved => .error "no scripted response")

/-- «_influxdb»: its own catch handler resolves with the empty array, so
the bulk fetch never throws into its callers. -/
def influxdb (now : ℤ) (dparse : String → Option ℤ) (mdFetch : Option Metadata)
    (script : List (InfluxStep Obj)) (startTime endTime : ℤ)
    (aliasF cal unix : Bool) (sensorList : List String) (metadata : Option Metadata) :
    List Obj :=
  match influxdbBody now dparse mdFetch script startTime endTime aliasF cal unix sensorList metadata with
  | .ok l => l
  | .error _ => []

/-- The dataQuery try block: normalize both bounds, reject an inverted
range, check the device, resolve sensors and delegate to «_influxdb»
(which swallows its own failures). -/
def dataQueryBody (now : ℤ) (dparse : String → Option ℤ) (devices : Option (List String))
    (mdFetch : Option Metadata) (script : List (InfluxStep Obj))
    (deviceId : String) (sensorList : Option (List String))
    (startTime endTime : TimeIn) (aliasF cal unix : Bool) : Except String (List Obj) :=
  (timeToUnix now dparse startTime).bind (fun sUnix =>
    (timeToUnix now dparse endTime).bind (fun eUnix =>
      if eUnix < sUnix then .error "Invalid time range"
      else match devices with
      | none => .error "Failed to fetch device details"
      | some ds =>
        if deviceId ∉ ds then .error "Device not found in account"
        else
          (resolveSensors sensorList mdFetch).map (fun rs =>
            influxdb now dparse mdFetch script sUnix eUnix aliasF cal unix rs.1 rs.2)))

/-- dataQuery: the catch handler resolves with the empty array. -/
def dataQuery (now : ℤ) (dparse : String → Option ℤ) (devices : Option (List String))
    (mdFetch : Option Metadata) (script : List (InfluxStep Obj))
    (deviceId : String) (sensorList : Option (List String))
    (startTime endTime : TimeIn) (aliasF cal unix : Bool) : List Obj :=
  match dataQueryBody now dparse devices mdFetch script deviceId sensorList startTime endTime aliasF cal unix with
  | .ok l => l
  | .error _ => []

/-- The getLoadEntities try block, paired with the number of page requests
issued: an explicit empty cluster filter is rejected before the loop runs
(zero requests); otherwise the pagination loop runs and a successful result
is post-filtered by name-or-id membership when a filter was given. -/
def getLoadEntitiesBody (clusters : Option (List String))
    (script : List (LoadStep Obj)) : Except String (List Obj) × ℕ :=
  match clusters with
  | some [] => (.error "No clusters provided.", 0)
  | _ =>
    let out := loadRun script (loadInit (R := Obj))
    (match out.result with
     | .ok res =>
       match clusters with
       | some cs => .ok (res.filter (fun it => strFieldMem it "name" cs || strFieldMem it "id" cs))
       | none => .ok res
     | .maxRetries => .error "Max retries for data fetching from api-layer exceeded."
     | .typeErr => .error "TypeError"
     | .starved => .error "no scripted response", out.calls)

/-- getLoadEntities: the catch handler resolves with the empty array. -/
def getLoadEntities (clusters : Option (List String))
    (script : List (LoadStep Obj)) : List Obj :=
  match (getLoadEntitiesBody clusters script).1 with
  | .ok l => l
  | .error _ => []

/-! ## EventsHandler (src/connectors/EventsHandler.ts) -/

/-- The time argument of isoUtcTime: absent, a string, or a Date carried by
its epoch value (the ISO string it produces is identified with its epoch,
which is what the subsequent comparison reads). -/
inductive ETime where
  | eNull : ETime
  | eStr : String → ETime
  | eDate : ℤ → ETime
  deriving DecidableEq, Repr

/-- isoUtcTime: absent gives the current time, a string must parse as a
date, a Date contributes its epoch. -/
def isoUtcTime (now : ℤ) (dparse : String → Option ℤ) : ETime → Except String ℤ
  | .eNull => .ok now
  | .eStr s =>
    match dparse s with
    | some e => .ok e
    | none => .error "Invalid date format"
  | .eDate e => .ok e

/-- One scripted server behaviour for a single EventsHandler request:
transport failure or a response whose body may lack the data field. -/
inductive EvStep where
  | net : EvStep
  | resp : Option (List Obj) → EvStep
  deriving Repr

/-- The getEventsInTimeslot try block: normalize both bounds, reject an
inverted range, make the request and insist on a data field. -/
def getEventsInTimeslotBody (now : ℤ) (dparse : String → Option ℤ)
    (startTime endTime : ETime) (step : EvStep) : Except String (List Obj) :=
  (isoUtcTime now dparse startTime).bind (fun s =>
    (isoUtcTime now dparse endTime).bind (fun e =>
      if e < s then .error "Invalid time range"
      else match step with
      | .net => .error "request failed"
      | .resp none => .error "Invalid response format"
      | .resp (some d) => .ok d))

/-- getEventsInTimeslot: the catch handler resolves with the empty array. -/
def getEventsInTimeslot (now : ℤ) (dparse : String → Option ℤ)
    (startTime endTime : ETime) (step : EvStep) : List Obj :=
  match getEventsInTimeslotBody now dparse startTime endTime step with
  | .ok l => l
  | .error _ => []

/-- An event category as returned by the categories endpoint. -/
structure EventCategory where
  catId : String
  name : String
  deriving DecidableEq, Repr

/-- One scripted behaviour of the getEventCategories request. -/
inductive CatStep where
  | net : CatStep
  | resp : Option (List EventCategory) → CatStep
  deriving Repr

/-- getEventCategories swallows every failure into the empty list (it is a
query-style read). -/
def getEventCategories (step : CatStep) : List EventCategory :=
  match step with
  | .net => []
  | .resp none => []
  | .resp (some l) => l

/-- One scripted behaviour of the publish POST request. -/
inductive PubStep where
  | net : PubStep
  | resp : Option Obj → PubStep
  deriving Repr

/-- The publishEvent try block: when event names are supplied (non-empty),
the tag list is rebuilt by resolving each name against the fetched
categories (a missing name throws); an empty or absent final tag list
throws before the request; then the POST is made and its data field
returned. -/
def publishEventBody (catStep : CatStep) (pubStep : PubStep)
    (eventTagsList eventNamesList : Option (List String)) : Except String Obj :=
  (match eventNamesList with
   | some names =>
     if names.length > 0 then
       let categories := getEventCategories catStep
       names.foldlM
         (fun acc nm =>
           (match categories.find? (fun c => c.name = nm) with
            | some cat => .ok (acc ++ [cat.catId])
            | none => .error "Tag not found in data." : Except String (List String)))
         ([] : List String) |>.map (fun tags => some tags)
     else .ok eventTagsList
   | none => .ok eventTagsList : Except String (Option (List String))).bind (fun finalTags =>
    match finalTags with
    | none => .error "No event tags found."
    | some [] => .error "No event tags found."
    | some _ =>
      match pubStep with
      | .net => .error "request failed"
      | .resp none => .error "Invalid response format"
      | .resp (some d) => .ok d)

/-- publishEvent: the catch handler logs and rethrows, so the caller sees
every failure; the exported operation is the body itself. -/
def publishEvent (catStep : CatStep) (pubStep : PubStep)
    (eventTagsList eventNamesList : Option (List String)) : Except String Obj :=
  publishEventBody catStep pubStep eventTagsList eventNamesList

/-! ## Claims -/

/-- Written from the spec's wording of the calibration formula (for
comparison with the source-derived `calApply`): min(max(m*v + c, min), max),
the lower clamp before the upper, each only when defined. -/
def specClampedValue (m c : ℚ) (lo hi : Option ℚ) (v : ℚ) : ℚ :=
  let base := m * v + c
  let lower := match lo with
    | some a => max base a
    | none => base
  match hi with
  | some b => min lower b
  | none => lower

theorem calApply_eq_spec (acc : CalAcc) (v : ℚ) :
    calApply acc v = specClampedValue acc.m acc.c acc.minv acc.maxv v := by
  obtain ⟨m, c, lo, hi⟩ := acc
  cases lo <;> cases hi <;> rfl

/-- C5: timeToUnix rejects non-positive numbers and numbers with at most
ten decimal digits, returns longer numbers unchanged, maps null to the
current time, rejects unparsable strings, and maps every accepted
representation of one instant (millisecond number, parsable date string,
Date object) to the same epoch value. -/
theorem claim5_time_normalizer (now n : ℤ) (dparse : String → Option ℤ) (s sBad : String)
    (hn : 0 < n) (hd : 10 < numDigits n) (hs : dparse s = some n) (hb : dparse sBad = none) :
    (∀ m : ℤ, m ≤ 0 ∨ numDigits m ≤ 10 →
      timeToUnix now dparse (.tNum m) =
        .error "Unix timestamp must be a positive integer in milliseconds, not seconds.")
    ∧ timeToUnix now dparse (.tNum n) = .ok n
    ∧ timeToUnix now dparse .tNull = .ok now
    ∧ timeToUnix now dparse (.tStr sBad) = .error "Invalid date string"
    ∧ timeToUnix now dparse (.tStr s) = .ok n
    ∧ timeToUnix now dparse (.tDate n) = .ok n := by
  refine ⟨fun m hm => ?_, ?_, rfl, ?_, ?_, rfl⟩
  · simp [timeToUnix, hm]
  · have : ¬ (n ≤ 0 ∨ numDigits n ≤ 10) := by
      push_neg
      exact ⟨hn, hd⟩
    simp [timeToUnix, this]
  · simp [timeToUnix, hb]
  · simp [timeToUnix, hs]

/-- Witness for C5 at the concrete instant 1717180320000 (13 digits). -/
theorem claim5_witness :
    timeToUnix 0 (fun t => if t = "bad" then none else some 1717180320000)
        (.tNum 1717180320) =
      .error "Unix timestamp must be a positive integer in milliseconds, not seconds."
    ∧ timeToUnix 0 (fun t => if t = "bad" then none else some 1717180320000)
        (.tNum 1717180320000) = .ok 1717180320000
    ∧ timeToUnix 0 (fun t => if t = "bad" then none else some 1717180320000)
        (.tStr "2024-05-31T18:32:00Z") = .ok 1717180320000
    ∧ timeToUnix 0 (fun t => if t = "bad" then none else some 1717180320000)
        (.tStr "bad") = .error "Invalid date string"
    ∧ timeToUnix 0 (fun t => if t = "bad" then none else some 1717180320000)
        (.tDate 1717180320000) = .ok 1717180320000 := by
  have h := claim5_time_normalizer 0 1717180320000
    (fun t => if t = "bad" then none else some 1717180320000)
    "2024-05-31T18:32:00Z" "bad" (by decide) (by decide) (by decide) (by decide)
  exact ⟨h.1 1717180320 (by right; decide), h.2.1, h.2.2.2.2.1, h.2.2.2.1, h.2.2.2.2.2⟩

/-- C3: for a record whose truthy string sensor has a parameter list, a
parsable non-null value is calibrated to min(max(m*v + c, min), max) with
the extracted slope/intercept/clamps, the lower clamp first and each clamp
only when its parameter parsed; null values, unparsable values, missing
values and sensors without parameters pass through unchanged (the stage is
a total function, so it never raises). -/
theorem claim3_calibration (md : Metadata) (row : Obj) (s : String)
    (hs : getK row "sensor" = some (.vStr s)) (hns : s ≠ "") :
    (∀ ps v q, lookupParams md s = some ps → getK row "value" = some v →
      jsParseFloat v = some q →
      calRow md row = setK row "value"
        (.vNum (specClampedValue (extractParams ps).m (extractParams ps).c
          (extractParams ps).minv (extractParams ps).maxv q)))
    ∧ (∀ ps, lookupParams md s = some ps → getK row "value" = some .vNull →
        calRow md row = row)
    ∧ (∀ ps v, lookupParams md s = some ps → getK row "value" = some v →
        jsParseFloat v = none → calRow md row = row)
    ∧ (∀ ps, lookupParams md s = some ps → getK row "value" = none →
        calRow md row = row)
    ∧ (lookupParams md s = none → calRow md row = row) := by
  refine ⟨?_, ?_, ?_, ?_, ?_⟩
  · intro ps v q hps hv hq
    have hvn : v ≠ .vNull := by
      intro hc; rw [hc] at hq; simp [jsParseFloat] at hq
    rw [← calApply_eq_spec]
    simp [calRow, hs, hns, hps, hv, hvn, hq]
  · intro ps hps hv
    simp [calRow, hs, hns, hps, hv]
  · intro ps v hps hv hq
    by_cases hvn : v = .vNull
    · simp [calRow, hs, hns, hps, hv, hvn]
    · simp [calRow, hs, hns, hps, hv, hvn, hq]
  · intro ps hps hv
    simp [calRow, hs, hns, hps, hv]
  · intro hps
    simp [calRow, hs, hns, hps]

/-- Witness for C3 at the spec's example: slope 2, intercept 1, min 0,
max 100; raw 10 calibrates to 21, raw 59.5 (which maps to 120) clamps to
100, and the non-numeric raw value passes through. -/
theorem claim3_witness :
    calRow ⟨[⟨"S1", "Temp"⟩],
        [("S1", [⟨"m", .vNum 2⟩, ⟨"c", .vNum 1⟩, ⟨"min", .vNum 0⟩, ⟨"max", .vNum 100⟩])]⟩
      [("sensor", .vStr "S1"), ("value", .vNum 10)]
      = [("sensor", .vStr "S1"), ("value", .vNum 21)]
    ∧ calRow ⟨[⟨"S1", "Temp"⟩],
        [("S1", [⟨"m", .vNum 2⟩, ⟨"c", .vNum 1⟩, ⟨"min", .vNum 0⟩, ⟨"max", .vNum 100⟩])]⟩
      [("sensor", .vStr "S1"), ("value", .vNum (mkRat 119 2))]
      = [("sensor", .vStr "S1"), ("value", .vNum 100)]
    ∧ calRow ⟨[⟨"S1", "Temp"⟩],
        [("S1", [⟨"m", .vNum 2⟩, ⟨"c", .vNum 1⟩, ⟨"min", .vNum 0⟩, ⟨"max", .vNum 100⟩])]⟩
      [("sensor", .vStr "S1"), ("value", .vStr "abc")]
      = [("sensor", .vStr "S1"), ("value", .vStr "abc")] := by
  refine ⟨?_, ?_, ?_⟩
  · have h := (claim3_calibration
      ⟨[⟨"S1", "Temp"⟩],
        [("S1", [⟨"m", .vNum 2⟩, ⟨"c", .vNum 1⟩, ⟨"min", .vNum 0⟩, ⟨"max", .vNum 100⟩])]⟩
      [("sensor", .vStr "S1"), ("value", .vNum 10)] "S1" (by decide) (by decide)).1
      [⟨"m", .vNum 2⟩, ⟨"c", .vNum 1⟩, ⟨"min", .vNum 0⟩, ⟨"max", .vNum 100⟩]
      (.vNum 10) 10 (by decide) (by decide) (by decide)
    rw [h]
    have hv : specClampedValue (extractParams [⟨"m", .vNum 2⟩, ⟨"c", .vNum 1⟩, ⟨"min", .vNum 0⟩, ⟨"max", .vNum 100⟩]).m
        (extractParams [⟨"m", .vNum 2⟩, ⟨"c", .vNum 1⟩, ⟨"min", .vNum 0⟩, ⟨"max", .vNum 100⟩]).c
        (extractParams [⟨"m", .vNum 2⟩, ⟨"c", .vNum 1⟩, ⟨"min", .vNum 0⟩, ⟨"max", .vNum 100⟩]).minv
        (extractParams [⟨"m", .vNum 2⟩, ⟨"c", .vNum 1⟩, ⟨"min", .vNum 0⟩, ⟨"max", .vNum 100⟩]).maxv 10 = 21 := by
      have he : extractParams [(⟨"m", .vNum 2⟩ : SensorParam), ⟨"c", .vNum 1⟩, ⟨"min", .vNum 0⟩, ⟨"max", .vNum 100⟩]
          = ⟨2, 1, some 0, some 100⟩ := by decide
      rw [he]
      show min (max ((2:ℚ) * 10 + 1) 0) 100 = 21
      norm_num
    rw [hv]; decide
  · have h := (claim3_calibration
      ⟨[⟨"S1", "Temp"⟩],
        [("S1", [⟨"m", .vNum 2⟩, ⟨"c", .vNum 1⟩, ⟨"min", .vNum 0⟩, ⟨"max", .vNum 100⟩])]⟩
      [("sensor", .vStr "S1"), ("value", .vNum (mkRat 119 2))] "S1" (by decide) (by decide)).1
      [⟨"m", .vNum 2⟩, ⟨"c", .vNum 1⟩, ⟨"min", .vNum 0⟩, ⟨"max", .vNum 100⟩]
      (.vNum (mkRat 119 2)) (mkRat 119 2) (by decide) (by decide) (by decide)
    rw [h]
    have hv : specClampedValue (extractParams [⟨"m", .vNum 2⟩, ⟨"c", .vNum 1⟩, ⟨"min", .vNum 0⟩, ⟨"max", .vNum 100⟩]).m
        (extractParams [⟨"m", .vNum 2⟩, ⟨"c", .vNum 1⟩, ⟨"min", .vNum 0⟩, ⟨"max", .vNum 100⟩]).c
        (extractParams [⟨"m", .vNum 2⟩, ⟨"c", .vNum 1⟩, ⟨"min", .vNum 0⟩, ⟨"max", .vNum 100⟩]).minv
        (extractParams [⟨"m", .vNum 2⟩, ⟨"c", .vNum 1⟩, ⟨"min", .vNum 0⟩, ⟨"max", .vNum 100⟩]).maxv (mkRat 119 2) = 100 := by
      have he : extractParams [(⟨"m", .vNum 2⟩ : SensorParam), ⟨"c", .vNum 1⟩, ⟨"min", .vNum 0⟩, ⟨"max", .vNum 100⟩]
          = ⟨2, 1, some 0, some 100⟩ := by decide
      rw [he]
      show min (max ((2:ℚ) * (mkRat 119 2) + 1) 0) 100 = 100
      rw [Rat.mkRat_eq_div]
      norm_num
    rw [hv]; decide
  · have h := (claim3_calibration
      ⟨[⟨"S1", "Temp"⟩],
        [("S1", [⟨"m", .vNum 2⟩, ⟨"c", .vNum 1⟩, ⟨"min", .vNum 0⟩, ⟨"max", .vNum 100⟩])]⟩
      [("sensor", .vStr "S1"), ("value", .vStr "abc")] "S1" (by decide) (by decide)).2.2.1
      [⟨"m", .vNum 2⟩, ⟨"c", .vNum 1⟩, ⟨"min", .vNum 0⟩, ⟨"max", .vNum 100⟩]
      (.vStr "abc") (by decide) (by decide) (by decide)
    exact h

/-- C10: a slope parameter whose value parses to 0 or fails to parse is
replaced by the default slope 1 (the JS expression parseFloat(v) || 1), so
a configured zero slope never takes effect: a record with a numeric value
is calibrated with slope 1 instead of being collapsed to the intercept. -/
theorem claim10_zero_slope :
    (∀ (acc : CalAcc) (v : JSValue), jsParseFloat v = some 0 →
      (updateParam acc ⟨"m", v⟩).m = 1)
    ∧ (∀ (acc : CalAcc) (v : JSValue), jsParseFloat v = none →
      (updateParam acc ⟨"m", v⟩).m = 1)
    ∧ (∀ (ps : List SensorParam) (p : SensorParam), p.paramName = "m" →
      (jsParseFloat p.paramValue = some 0 ∨ jsParseFloat p.paramValue = none) →
      (extractParams (ps ++ [p])).m = 1)
    ∧ (∀ (row : Obj) (q : ℚ),
      getK row "sensor" = some (.vStr "S1") → getK row "value" = some (.vNum q) →
      calRow ⟨[], [("S1", [⟨"m", .vNum 0⟩, ⟨"c", .vNum 5⟩])]⟩ row
        = setK row "value" (.vNum (q + 5))
      ∧ (q ≠ 0 → q + 5 ≠ 5)) := by
  refine ⟨?_, ?_, ?_, ?_⟩
  · intro acc v hv; simp [updateParam, hv]
  · intro acc v hv; simp [updateParam, hv]
  · intro ps p hm hv
    have : extractParams (ps ++ [p]) = updateParam (extractParams ps) p := by
      simp [extractParams, List.foldl_append]
    rw [this]
    rcases hv with hv | hv <;> simp [updateParam, hm, hv]
  · intro row q hs hv
    constructor
    · have h := (claim3_calibration ⟨[], [("S1", [⟨"m", .vNum 0⟩, ⟨"c", .vNum 5⟩])]⟩
        row "S1" hs (by decide)).1 [⟨"m", .vNum 0⟩, ⟨"c", .vNum 5⟩] (.vNum q) q
        (by decide) hv (by rfl)
      rw [h]
      have : specClampedValue (extractParams [⟨"m", .vNum 0⟩, ⟨"c", .vNum 5⟩]).m
          (extractParams [⟨"m", .vNum 0⟩, ⟨"c", .vNum 5⟩]).c
          (extractParams [⟨"m", .vNum 0⟩, ⟨"c", .vNum 5⟩]).minv
          (extractParams [⟨"m", .vNum 0⟩, ⟨"c", .vNum 5⟩]).maxv q = q + 5 := by
        show (1 : ℚ) * q + 5 = q + 5
        ring
      rw [this]
    · intro hq hc
      exact hq (by linarith)

/-- Witness for C10 at a concrete record: zero slope with intercept 5 maps
value 10 to 15, not to the intercept 5. -/
theorem claim10_witness :
    calRow ⟨[], [("S1", [⟨"m", .vNum 0⟩, ⟨"c", .vNum 5⟩])]⟩
      [("sensor", .vStr "S1"), ("value", .vNum 10)]
      = setK [("sensor", .vStr "S1"), ("value", .vNum 10)] "value" (.vNum (10 + 5))
    ∧ (10 : ℚ) + 5 ≠ 5 := by
  have h := (claim10_zero_slope).2.2.2 [("sensor", .vStr "S1"), ("value", .vNum 10)] 10
    (by decide) (by decide)
  exact ⟨h.1, h.2 (by decide)⟩

/-- C8: an explicit empty cluster filter is rejected inside getLoadEntities
before the pagination loop can issue any request: the body raises the
validation error with zero page requests made, whatever the server script. -/
theorem claim8_empty_filter (script : List (LoadStep Obj)) :
    getLoadEntitiesBody (some []) script = (.error "No clusters provided.", 0) := by
  rfl

/-- C7: every query-style orchestrator catches every error its body raises
at its own boundary and resolves with the empty result, while the
mutation-style publishEvent rethrows its body's every error — in
particular it raises (rather than defaulting) when the final event-tag
list is empty. -/
theorem claim7_propagation :
    (∀ now dparse devices mdFetch scripts deviceId sensorList n endTime aliasF cal unix e,
      getDpBody now dparse devices mdFetch scripts deviceId sensorList n endTime aliasF cal unix = .error e →
      getDp now dparse devices mdFetch scripts deviceId sensorList n endTime aliasF cal unix = [])
    ∧ (∀ now dparse devices mdFetch step deviceId sensorList n startTime aliasF cal unix e,
      getFirstDpBody now dparse devices mdFetch step deviceId sensorList n startTime aliasF cal unix = .error e →
      getFirstDp now dparse devices mdFetch step deviceId sensorList n startTime aliasF cal unix = [])
    ∧ (∀ now dparse devices mdFetch script deviceId sensorList startTime endTime aliasF cal unix e,
      dataQueryBody now dparse devices mdFetch script deviceId sensorList startTime endTime aliasF cal unix = .error e →
      dataQuery now dparse devices mdFetch script deviceId sensorList startTime endTime aliasF cal unix = [])
    ∧ (∀ now dparse mdFetch script startTime endTime aliasF cal unix sensorList metadata e,
      influxdbBody now dparse mdFetch script startTime endTime aliasF cal unix sensorList metadata = .error e →
      influxdb now dparse mdFetch script startTime endTime aliasF cal unix sensorList metadata = [])
    ∧ (∀ clusters script e,
      (getLoadEntitiesBody clusters script).1 = .error e →
      getLoadEntities clusters script = [])
    ∧ (∀ now dparse startTime endTime step e,
      getEventsInTimeslotBody now dparse startTime endTime step = .error e →
      getEventsInTimeslot now dparse startTime endTime step = [])
    ∧ (∀ catStep pubStep eventTagsList eventNamesList e,
      publishEventBody catStep pubStep eventTagsList eventNamesList = .error e →
      publishEvent catStep pubStep eventTagsList eventNamesList = .error e)
    ∧ (∀ catStep pubStep,
      publishEvent catStep pubStep (some []) none = .error "No event tags found.") := by
  refine ⟨?_, ?_, ?_, ?_, ?_, ?_, ?_, ?_⟩
  · intro now dparse devices mdFetch scripts deviceId sensorList n endTime aliasF cal unix e h
    simp [getDp, h]
  · intro now dparse devices mdFetch step deviceId sensorList n startTime aliasF cal unix e h
    simp [getFirstDp, h]
  · intro now dparse devices mdFetch script deviceId sensorList startTime endTime aliasF cal unix e h
    simp [dataQuery, h]
  · intro now dparse mdFetch script startTime endTime aliasF cal unix sensorList metadata e h
    simp [influxdb, h]
  · intro clusters script e h
    simp [getLoadEntities, h]
  · intro now dparse startTime endTime step e h
    simp [getEventsInTimeslot, h]
  · intro catStep pubStep eventTagsList eventNamesList e h
    simpa [publishEvent] using h
  · intro catStep pubStep
    rfl

/-- An always-failing script exhausts the getDp loop after exactly
MAX_RETRIES requests, whatever the starting retry count. -/
theorem dpRun_allFail {R : Type} : ∀ (m : ℕ) (st : DpState R),
    dpCont st.cursor = true → st.retry < MAX_RETRIES → MAX_RETRIES ≤ st.retry + m →
    (dpRun (List.replicate m DpStep.net) st).result = .maxRetries
    ∧ (dpRun (List.replicate m DpStep.net) st).calls = st.calls + (MAX_RETRIES - st.retry) := by
  intro m
  induction m with
  | zero =>
    intro st hc hr hm
    exact absurd hm (by omega)
  | succ m ih =>
    intro st hc hr hm
    rw [List.replicate_succ, dpRun]
    simp only [hc, if_true]
    by_cases hge : st.retry + 1 ≥ MAX_RETRIES
    · rw [if_pos hge]
      exact ⟨rfl, by show st.calls + 1 = st.calls + (MAX_RETRIES - st.retry); omega⟩
    · rw [if_neg hge]
      have h := ih ⟨st.cursor, st.retry + 1, st.acc, st.calls + 1,
        st.sleeps ++ [if st.retry + 1 > 5 then RETRY_DELAY.2 else RETRY_DELAY.1]⟩
        hc (show st.retry + 1 < MAX_RETRIES by omega)
        (show MAX_RETRIES ≤ st.retry + 1 + m by omega)
      refine ⟨h.1, ?_⟩
      rw [h.2]
      show st.calls + 1 + (MAX_RETRIES - (st.retry + 1)) = st.calls + (MAX_RETRIES - st.retry)
      omega

/-- An always-failing script exhausts the influx loop after exactly
MAX_RETRIES_INFLUX requests. -/
theorem influxRun_allFail {R : Type} : ∀ (m : ℕ) (st : InfluxState R),
    influxCont st.cursor = true → st.retry < MAX_RETRIES_INFLUX →
    MAX_RETRIES_INFLUX ≤ st.retry + m →
    (influxRun (List.replicate m InfluxStep.net) st).result = .maxRetries
    ∧ (influxRun (List.replicate m InfluxStep.net) st).calls
      = st.calls + (MAX_RETRIES_INFLUX - st.retry) := by
  intro m
  induction m with
  | zero =>
    intro st hc hr hm
    exact absurd hm (by omega)
  | succ m ih =>
    intro st hc hr hm
    rw [List.replicate_succ, influxRun]
    simp only [hc, if_true]
    by_cases hlt : st.retry + 1 < MAX_RETRIES_INFLUX
    · rw [if_pos hlt]
      have h := ih ⟨st.cursor, st.retry + 1, st.acc, st.calls + 1,
        st.sleeps ++ [if st.retry + 1 > 5 then RETRY_DELAY_INFLUX.2 else RETRY_DELAY_INFLUX.1]⟩
        hc (show st.retry + 1 < MAX_RETRIES_INFLUX from hlt)
        (show MAX_RETRIES_INFLUX ≤ st.retry + 1 + m by omega)
      refine ⟨h.1, ?_⟩
      rw [h.2]
      show st.calls + 1 + (MAX_RETRIES_INFLUX - (st.retry + 1))
        = st.calls + (MAX_RETRIES_INFLUX - st.retry)
      omega
    · rw [if_neg hlt]
      exact ⟨rfl, by show st.calls + 1 = st.calls + (MAX_RETRIES_INFLUX - st.retry); omega⟩

/-- An always-failing script exhausts the getLoadEntities loop after
exactly MAX_RETRIES requests. -/
theorem loadRun_allFail {R : Type} : ∀ (m : ℕ) (st : LoadState R),
    st.hasMore = true → st.retry < MAX_RETRIES → MAX_RETRIES ≤ st.retry + m →
    (loadRun (List.replicate m LoadStep.net) st).result = .maxRetries
    ∧ (loadRun (List.replicate m LoadStep.net) st).calls = st.calls + (MAX_RETRIES - st.retry) := by
  intro m
  induction m with
  | zero =>
    intro st hc hr hm
    exact absurd hm (by omega)
  | succ m ih =>
    intro st hc hr hm
    rw [List.replicate_succ, loadRun]
    simp only [hc, if_true]
    by_cases hlt : st.retry + 1 < MAX_RETRIES
    · rw [if_pos hlt]
      have h := ih ⟨st.pageCount, true, st.result, st.retry + 1, st.calls + 1,
        st.sleeps ++ [if st.retry + 1 > 5 then RETRY_DELAY.2 else RETRY_DELAY.1]⟩
        rfl (show st.retry + 1 < MAX_RETRIES from hlt)
        (show MAX_RETRIES ≤ st.retry + 1 + m by omega)
      refine ⟨h.1, ?_⟩
      rw [h.2]
      show st.calls + 1 + (MAX_RETRIES - (st.retry + 1)) = st.calls + (MAX_RETRIES - st.retry)
      omega
    · rw [if_neg hlt]
      exact ⟨rfl, by show st.calls + 1 = st.calls + (MAX_RETRIES - st.retry); omega⟩

/-- C1: with a step that always fails transiently every fetch loop
terminates by exhausting its retry budget: the two REST loops (per-sensor
getDp pagination and getLoadEntities pagination) make exactly 15 requests
and the bulk influx loop exactly 8, each ending in the thrown max-retries
error, which carries no partial data. -/
theorem claim1_retry_exhaustion (R : Type) (n : ℕ) (c0 : DpCursor) (ic : InfluxCursor)
    (h1 : dpCont c0 = true) (h2 : influxCont (some ic) = true) :
    ((dpRun (R := R) (List.replicate (15 + n) DpStep.net) ⟨c0, 0, [], 0, []⟩).result
        = .maxRetries
      ∧ (dpRun (R := R) (List.replicate (15 + n) DpStep.net) ⟨c0, 0, [], 0, []⟩).calls = 15)
    ∧ ((influxRun (R := R) (List.replicate (8 + n) InfluxStep.net) ⟨some ic, 0, [], 0, []⟩).result
        = .maxRetries
      ∧ (influxRun (R := R) (List.replicate (8 + n) InfluxStep.net) ⟨some ic, 0, [], 0, []⟩).calls = 8)
    ∧ ((loadRun (R := R) (List.replicate (15 + n) LoadStep.net) (loadInit (R := R))).result
        = .maxRetries
      ∧ (loadRun (R := R) (List.replicate (15 + n) LoadStep.net) (loadInit (R := R))).calls = 15) := by
  have hd := dpRun_allFail (R := R) (15 + n) ⟨c0, 0, [], 0, []⟩ h1
    (show 0 < MAX_RETRIES by decide)
    (show MAX_RETRIES ≤ 0 + (15 + n) by unfold MAX_RETRIES; omega)
  have hi := influxRun_allFail (R := R) (8 + n) ⟨some ic, 0, [], 0, []⟩ h2
    (show 0 < MAX_RETRIES_INFLUX by decide)
    (show MAX_RETRIES_INFLUX ≤ 0 + (8 + n) by unfold MAX_RETRIES_INFLUX; omega)
  have hl := loadRun_allFail (R := R) (15 + n) (loadInit (R := R)) rfl
    (show 0 < MAX_RETRIES by decide)
    (show MAX_RETRIES ≤ 0 + (15 + n) by unfold MAX_RETRIES; omega)
  refine ⟨⟨hd.1, ?_⟩, ⟨hi.1, ?_⟩, ⟨hl.1, ?_⟩⟩
  · rw [hd.2]; rfl
  · rw [hi.2]; rfl
  · rw [hl.2]; rfl

/-- Witness for C1 at concrete cursors, record type ℕ and the minimal
all-failing scripts. -/
theorem claim1_witness :
    ((dpRun (R := ℕ) (List.replicate 15 DpStep.net) ⟨⟨some 99, some 1⟩, 0, [], 0, []⟩).result
        = .maxRetries
      ∧ (dpRun (R := ℕ) (List.replicate 15 DpStep.net) ⟨⟨some 99, some 1⟩, 0, [], 0, []⟩).calls = 15)
    ∧ ((influxRun (R := ℕ) (List.replicate 8 InfluxStep.net) ⟨some ⟨some 1, some 2⟩, 0, [], 0, []⟩).result
        = .maxRetries
      ∧ (influxRun (R := ℕ) (List.replicate 8 InfluxStep.net) ⟨some ⟨some 1, some 2⟩, 0, [], 0, []⟩).calls = 8)
    ∧ ((loadRun (R := ℕ) (List.replicate 15 LoadStep.net) (loadInit (R := ℕ))).result
        = .maxRetries
      ∧ (loadRun (R := ℕ) (List.replicate 15 LoadStep.net) (loadInit (R := ℕ))).calls = 15) :=
  claim1_retry_exhaustion ℕ 0 ⟨some 99, some 1⟩ ⟨some 1, some 2⟩ (by decide) (by decide)

/-- A falsy cursor stops the getDp loop with the accumulated data, before
any further request. -/
theorem dpRun_stop {R : Type} (script : List (DpStep R)) (st : DpState R)
    (h : dpCont st.cursor = false) :
    dpRun script st = ⟨.ok st.acc, st.calls, st.sleeps⟩ := by
  cases script with
  | nil => rw [dpRun]; simp [h]
  | cons s rest =>
    cases s with
    | net => rw [dpRun]; simp [h]
    | resp b d c =>
      cases b
      · cases d <;> cases c <;> (rw [dpRun]; simp [h])
      · rw [dpRun]; simp [h]

/-- A falsy cursor stops the influx loop with the accumulated data. -/
theorem influxRun_stop {R : Type} (script : List (InfluxStep R)) (st : InfluxState R)
    (h : influxCont st.cursor = false) :
    influxRun script st = ⟨.ok st.acc, st.calls, st.sleeps⟩ := by
  cases script with
  | nil => rw [influxRun]; simp [h]
  | cons s rest =>
    cases s with
    | net => rw [influxRun]; simp [h]
    | resp b d c =>
      cases b
      · cases d <;> (rw [influxRun]; simp [h])
      · rw [influxRun]; simp [h]

/-- A run of successful pages ending in a response whose cursor object has
a falsy end field accumulates exactly the pages in order, in one request
per page, and makes no further request. -/
theorem dpRun_pages {R : Type} : ∀ (pages : List (List R × DpCursor)) (st : DpState R)
    (dLast : List R) (cEnd : DpCursor) (rest : List (DpStep R)),
    dpCont st.cursor = true → (∀ pc ∈ pages, dpCont pc.2 = true) → dpCont cEnd = false →
    dpRun (pages.map (fun pc => DpStep.resp false (some pc.1) (some pc.2))
        ++ DpStep.resp false (some dLast) (some cEnd) :: rest) st
      = ⟨.ok ((st.acc ++ (pages.map Prod.fst).flatten) ++ dLast),
          st.calls + (pages.length + 1), st.sleeps⟩ := by
  intro pages
  induction pages with
  | nil =>
    intro st dLast cEnd rest hc _ hEnd
    rw [List.map_nil, List.nil_append, dpRun]
    simp only [hc, if_true]
    rw [dpRun_stop rest ⟨cEnd, st.retry, st.acc ++ dLast, st.calls + 1, st.sleeps⟩
      (show dpCont cEnd = false from hEnd)]
    simp
  | cons pc pages ih =>
    intro st dLast cEnd rest hc hp hEnd
    rw [List.map_cons, List.cons_append, dpRun]
    simp only [hc, if_true]
    rw [ih ⟨pc.2, st.retry, st.acc ++ pc.1, st.calls + 1, st.sleeps⟩ dLast cEnd rest
      (hp pc (List.mem_cons_self pc pages)) (fun q hq => hp q (List.mem_cons_of_mem pc hq)) hEnd]
    simp only [List.map_cons, List.flatten_cons, List.length_cons]
    rw [List.append_assoc st.acc pc.1]
    refine congrArg (fun z => FetchOut.mk (.ok ((st.acc ++ (pc.1 ++ (pages.map Prod.fst).flatten)) ++ dLast)) z st.sleeps) ?_
    omega

/-- The influx analogue: successful pages ending in any falsy cursor
(including a missing cursor object, thanks to optional chaining). -/
theorem influxRun_pages {R : Type} : ∀ (pages : List (List R × InfluxCursor)) (st : InfluxState R)
    (dLast : List R) (cEnd : Option InfluxCursor) (rest : List (InfluxStep R)),
    influxCont st.cursor = true → (∀ pc ∈ pages, influxCont (some pc.2) = true) →
    influxCont cEnd = false →
    influxRun (pages.map (fun pc => InfluxStep.resp false (some pc.1) (some pc.2))
        ++ InfluxStep.resp false (some dLast) cEnd :: rest) st
      = ⟨.ok ((st.acc ++ (pages.map Prod.fst).flatten) ++ dLast),
          st.calls + (pages.length + 1), st.sleeps⟩ := by
  intro pages
  induction pages with
  | nil =>
    intro st dLast cEnd rest hc _ hEnd
    rw [List.map_nil, List.nil_append, influxRun]
    simp only [hc, if_true]
    rw [influxRun_stop rest ⟨cEnd, st.retry, st.acc ++ dLast, st.calls + 1, st.sleeps⟩
      (show influxCont cEnd = false from hEnd)]
    simp
  | cons pc pages ih =>
    intro st dLast cEnd rest hc hp hEnd
    rw [List.map_cons, List.cons_append, influxRun]
    simp only [hc, if_true]
    rw [ih ⟨some pc.2, st.retry, st.acc ++ pc.1, st.calls + 1, st.sleeps⟩ dLast cEnd rest
      (hp pc (List.mem_cons_self pc pages)) (fun q hq => hp q (List.mem_cons_of_mem pc hq)) hEnd]
    simp only [List.map_cons, List.flatten_cons, List.length_cons]
    rw [List.append_assoc st.acc pc.1]
    refine congrArg (fun z => FetchOut.mk (.ok ((st.acc ++ (pc.1 ++ (pages.map Prod.fst).flatten)) ++ dLast)) z st.sleeps) ?_
    omega

/-- C2 (amended): when the server answers successfully with pages p1..pk
and the k-th response carries a falsy next cursor — any falsy cursor for
the bulk influx loop, a cursor object with a falsy end field for the
per-sensor getDp loop — the loop terminates with exactly the concatenation
p1 ++ ... ++ pk in page order after exactly k requests, touching nothing
beyond the k-th script entry.  (A k-th getDp response with the cursor
object itself missing instead aborts with a TypeError, see the
counterexample.) -/
theorem claim2_pagination_amended (R : Type)
    (pages : List (List R × DpCursor)) (dLast : List R) (c0 cEnd : DpCursor)
    (rest : List (DpStep R))
    (ipages : List (List R × InfluxCursor)) (iLast : List R) (ic0 : InfluxCursor)
    (icEnd : Option InfluxCursor) (irest : List (InfluxStep R))
    (h0 : dpCont c0 = true) (hp : ∀ pc ∈ pages, dpCont pc.2 = true)
    (hEnd : dpCont cEnd = false)
    (hi0 : influxCont (some ic0) = true) (hip : ∀ pc ∈ ipages, influxCont (some pc.2) = true)
    (hiEnd : influxCont icEnd = false) :
    dpRun (pages.map (fun pc => DpStep.resp false (some pc.1) (some pc.2))
        ++ DpStep.resp false (some dLast) (some cEnd) :: rest) ⟨c0, 0, [], 0, []⟩
      = ⟨.ok ((pages.map Prod.fst).flatten ++ dLast), pages.length + 1, []⟩
    ∧ influxRun (ipages.map (fun pc => InfluxStep.resp false (some pc.1) (some pc.2))
        ++ InfluxStep.resp false (some iLast) icEnd :: irest) ⟨some ic0, 0, [], 0, []⟩
      = ⟨.ok ((ipages.map Prod.fst).flatten ++ iLast), ipages.length + 1, []⟩ := by
  constructor
  · rw [dpRun_pages pages ⟨c0, 0, [], 0, []⟩ dLast cEnd rest h0 hp hEnd]
    simp
  · rw [influxRun_pages ipages ⟨some ic0, 0, [], 0, []⟩ iLast icEnd irest hi0 hip hiEnd]
    simp

/-- Witness for C2 at the spec's three-page scenario (two truthy cursors,
then a falsy one) for both loop shapes. -/
theorem claim2_witness :
    dpRun (R := ℕ) ([([1], (⟨some 50, some 1⟩ : DpCursor)), ([2], ⟨some 40, some 1⟩)].map
          (fun pc => DpStep.resp false (some pc.1) (some pc.2))
        ++ DpStep.resp false (some [3]) (some ⟨some 0, some 1⟩) :: []) ⟨⟨some 99, some 1⟩, 0, [], 0, []⟩
      = ⟨.ok [1, 2, 3], 3, []⟩
    ∧ influxRun (R := ℕ) ([([10], (⟨some 2, some 9⟩ : InfluxCursor))].map
          (fun pc => InfluxStep.resp false (some pc.1) (some pc.2))
        ++ InfluxStep.resp false (some [20]) none :: []) ⟨some ⟨some 1, some 9⟩, 0, [], 0, []⟩
      = ⟨.ok [10, 20], 2, []⟩ := by
  have h := claim2_pagination_amended ℕ
    [([1], ⟨some 50, some 1⟩), ([2], ⟨some 40, some 1⟩)] [3] ⟨some 99, some 1⟩ ⟨some 0, some 1⟩ []
    [([10], ⟨some 2, some 9⟩)] [20] ⟨some 1, some 9⟩ none []
    (by decide) (by decide) (by decide) (by decide) (by decide) (by decide)
  exact ⟨h.1, h.2⟩

/-- C2 counterexample: a single successful getDp response whose body
carries data but no cursor object at all (the canonical falsy cursor) does
not yield that page — reading `.end` off the missing cursor throws a
TypeError instead, so the loop aborts without the concatenation. -/
theorem claim2_counterexample :
    dpRun (R := ℕ) [DpStep.resp false (some [5]) none] (dpInit 99 1) = ⟨.typeErr, 1, []⟩
    ∧ (dpRun (R := ℕ) [DpStep.resp false (some [5]) none] (dpInit 99 1)).result
      ≠ .ok [5] := by
  decide

/-- C9 (amended): on a transient failure each loop retries the very same
cursor (page) after sleeping the tiered delay selected by the cumulative
failure count of that fetch: the first five failures sleep the short value
and later ones the long value, the values handed to the millisecond sleep
being 2 then 4 for the REST loops (so 2ms/4ms) and 2000 then 10000 for the
bulk influx loop (2s/10s). -/
theorem claim9_backoff_amended (R : Type) (restD : List (DpStep R)) (stD : DpState R)
    (restI : List (InfluxStep R)) (stI : InfluxState R)
    (restL : List (LoadStep R)) (stL : LoadState R) :
    (dpCont stD.cursor = true → stD.retry + 1 < MAX_RETRIES →
      dpRun (DpStep.net :: restD) stD
        = dpRun restD ⟨stD.cursor, stD.retry + 1, stD.acc, stD.calls + 1,
            stD.sleeps ++ [if stD.retry + 1 > 5 then 4 else 2]⟩)
    ∧ (influxCont stI.cursor = true → stI.retry + 1 < MAX_RETRIES_INFLUX →
      influxRun (InfluxStep.net :: restI) stI
        = influxRun restI ⟨stI.cursor, stI.retry + 1, stI.acc, stI.calls + 1,
            stI.sleeps ++ [if stI.retry + 1 > 5 then 10000 else 2000]⟩)
    ∧ (stL.hasMore = true → stL.retry + 1 < MAX_RETRIES →
      loadRun (LoadStep.net :: restL) stL
        = loadRun restL ⟨stL.pageCount, stL.hasMore, stL.result, stL.retry + 1, stL.calls + 1,
            stL.sleeps ++ [if stL.retry + 1 > 5 then 4 else 2]⟩) := by
  refine ⟨fun hc hr => ?_, fun hc hr => ?_, fun hc hr => ?_⟩
  · conv_lhs => rw [dpRun]
    rw [if_pos (show dpCont stD.cursor = true from hc)]
    rw [if_neg (show ¬ stD.retry + 1 ≥ MAX_RETRIES by omega)]
    rfl
  · conv_lhs => rw [influxRun]
    rw [if_pos (show influxCont stI.cursor = true from hc), if_pos hr]
    rfl
  · conv_lhs => rw [loadRun]
    rw [if_pos (show stL.hasMore = true from hc), if_pos hr]
    rfl

/-- Witness for C9 at a concrete state: the first failure of a getDp walk
retries the same cursor after queueing a 2-millisecond sleep. -/
theorem claim9_witness :
    dpRun (R := ℕ) [DpStep.net] (dpInit 99 1)
      = dpRun [] ⟨⟨some 99, some 1⟩, 1, [], 1, [2]⟩ :=
  (claim9_backoff_amended ℕ [] (dpInit 99 1) [] ⟨some ⟨some 1, some 2⟩, 0, [], 0, []⟩
    [] (loadInit (R := ℕ))).1 (by decide) (by decide)

/-- C9 counterexample: an always-2-seconds-for-the-first-five-consecutive
reading is false on the code: a failure, a success, then five consecutive
failures sleeps 2, 2, 2, 2, 2, 4 — the values are 2 and 4 (milliseconds,
not the claimed 2 and 4 seconds), and the fifth consecutive failure
already gets the long delay because the counter is cumulative, so the
claimed sleep sequence of six short 2000ms delays does not occur. -/
theorem claim9_counterexample :
    (dpRun (R := ℕ) [DpStep.net, DpStep.resp false (some [1]) (some ⟨some 50, some 1⟩),
        DpStep.net, DpStep.net, DpStep.net, DpStep.net, DpStep.net,
        DpStep.resp false (some [2]) (some ⟨some 0, some 1⟩)] (dpInit 99 1)).sleeps
      = [2, 2, 2, 2, 2, 4]
    ∧ [2, 2, 2, 2, 2, 4] ≠ List.replicate 6 2000 := by
  decide

/-- Witness for C7: a rejected n propagates as the empty list from getDp, a
failed transport propagates as the empty list from getEventsInTimeslot, and
publishEvent with an explicitly empty tag list rethrows the validation
error to its caller. -/
theorem claim7_witness :
    getDp 0 (fun _ => none) none none (fun _ => []) "D" none 0 .tNull false false false = []
    ∧ getEventsInTimeslot 0 (fun _ => none) .eNull .eNull .net = []
    ∧ publishEvent .net .net (some []) none = .error "No event tags found." := by
  refine ⟨?_, ?_, ?_⟩
  · exact claim7_propagation.1 0 (fun _ => none) none none (fun _ => []) "D" none 0 .tNull
      false false false "Parameter n must be at least 1" (by rfl)
  · exact claim7_propagation.2.2.2.2.2.1 0 (fun _ => none) .eNull .eNull .net
      "request failed" (by rfl)
  · exact claim7_propagation.2.2.2.2.2.2.2 .net .net

theorem firstSeen_nil {α : Type} [DecidableEq α] : firstSeen ([] : List α) = [] := by
  rw [firstSeen]

theorem firstSeen_cons {α : Type} [DecidableEq α] (a : α) (l : List α) :
    firstSeen (a :: l) = a :: firstSeen (l.filter (fun b => b ≠ a)) := by
  rw [firstSeen]

theorem mem_of_mem_firstSeen_aux {α : Type} [DecidableEq α] :
    ∀ (n : ℕ) (l : List α), l.length ≤ n → ∀ x : α, x ∈ firstSeen l → x ∈ l := by
  intro n
  induction n with
  | zero =>
    intro l hl x hx
    rw [List.length_eq_zero.mp (Nat.le_zero.mp hl)] at hx ⊢
    rw [firstSeen_nil] at hx
    exact hx
  | succ n ih =>
    intro l hl x hx
    cases l with
    | nil => rw [firstSeen_nil] at hx; exact absurd hx (List.not_mem_nil x)
    | cons a l =>
      rw [firstSeen_cons] at hx
      rcases List.mem_cons.mp hx with h | h
      · exact h ▸ List.mem_cons_self a l
      · have hlen : (l.filter (fun b => b ≠ a)).length ≤ n := by
          have h1 := List.length_filter_le (fun b => b ≠ a) l
          simp only [List.length_cons, Nat.succ_le_succ_iff] at hl
          omega
        exact List.mem_cons_of_mem a
          (List.mem_of_mem_filter (ih (l.filter (fun b => b ≠ a)) hlen x h))

theorem mem_of_mem_firstSeen {α : Type} [DecidableEq α]
    (l : List α) (x : α) (h : x ∈ firstSeen l) : x ∈ l :=
  mem_of_mem_firstSeen_aux l.length l (Nat.le_refl _) x h

theorem firstSeen_filter_aux {α : Type} [DecidableEq α] (p : α → Bool) :
    ∀ (n : ℕ) (l : List α), l.length ≤ n →
      (firstSeen l).filter p = firstSeen (l.filter p) := by
  intro n
  induction n with
  | zero =>
    intro l hl
    rw [List.length_eq_zero.mp (Nat.le_zero.mp hl)]
    rw [firstSeen_nil]
    simp [firstSeen_nil]
  | succ n ih =>
    intro l hl
    cases l with
    | nil => rw [firstSeen_nil]; simp [firstSeen_nil]
    | cons a l =>
      have hlen : (l.filter (fun b => b ≠ a)).length ≤ n := by
        have h1 := List.length_filter_le (fun b => b ≠ a) l
        simp only [List.length_cons, Nat.succ_le_succ_iff] at hl
        omega
      rw [firstSeen_cons, List.filter_cons]
      by_cases hpa : p a = true
      · rw [if_pos (by simp [hpa])]
        rw [List.filter_cons, if_pos (by simp [hpa]), firstSeen_cons]
        congr 1
        rw [ih (l.filter (fun b => b ≠ a)) hlen]
        rw [List.filter_filter, List.filter_filter]
        exact congrArg firstSeen (List.filter_congr (fun x _ => by simp [Bool.and_comm]))
      · rw [if_neg (by simp [hpa])]
        rw [List.filter_cons, if_neg (by simp [hpa])]
        rw [ih (l.filter (fun b => b ≠ a)) hlen]
        rw [List.filter_filter]
        congr 1
        apply List.filter_congr
        intro x hx
        by_cases hpx : p x = true
        · have hxa : (x ≠ a : Bool) = true := by
            simp only [bne_iff_ne, ne_eq, decide_eq_true_eq]
            intro hc
            rw [hc] at hpx
            exact (by simp [hpa] : ¬ p a = true) hpx
          simp [hpx, hxa]
        · simp [Bool.not_eq_true] at hpx
          simp [hpx]

theorem firstSeen_filter {α : Type} [DecidableEq α] (p : α → Bool) (l : List α) :
    (firstSeen l).filter p = firstSeen (l.filter p) :=
  firstSeen_filter_aux p l.length l (Nat.le_refl _)

theorem getK_pivotFold : ∀ (rs : List Obj) (acc : Obj) (x : String),
    getK (rs.foldl pivotStep acc) x =
      match lastContrib rs x with
      | some v => some v
      | none => getK acc x := by
  intro rs
  induction rs with
  | nil => intro acc x; simp [lastContrib]
  | cons r rs ih =>
    intro acc x
    rw [List.foldl_cons, ih]
    cases hl : lastContrib rs x with
    | some v => simp [lastContrib, hl]
    | none =>
      simp only [lastContrib, hl]
      unfold pivotStep
      cases hco : contribOf r with
      | none => simp [contribAt, hco]
      | some sv =>
        obtain ⟨s, v⟩ := sv
        simp only [contribAt, hco]
        by_cases hx : s = x
        · subst hx
          simp [getK_setK_self]
        · rw [getK_setK_ne acc s x v (fun hc => hx hc.symm)]
          simp [hx]

theorem lastContrib_eq_none : ∀ (rs : List Obj) (x : String),
    (∀ r ∈ rs, contribAt r x = none) → lastContrib rs x = none := by
  intro rs
  induction rs with
  | nil => intro x _; rfl
  | cons r rs ih =>
    intro x h
    simp only [lastContrib, ih x (fun q hq => h q (List.mem_cons_of_mem r hq))]
    exact h r (List.mem_cons_self r rs)

theorem keysOf_pivotFold : ∀ (rs : List Obj) (acc : Obj),
    keysOf (rs.foldl pivotStep acc) =
      keysOf acc ++ (firstSeen (contribSensors rs)).filter (fun s => decide (s ∉ keysOf acc)) := by
  intro rs
  induction rs with
  | nil => intro acc; simp [contribSensors, firstSeen_nil]
  | cons r rs ih =>
    intro acc
    rw [List.foldl_cons, ih]
    unfold pivotStep
    cases hco : contribOf r with
    | none =>
      have hcs : contribSensors (r :: rs) = contribSensors rs := by
        simp [contribSensors, List.filterMap_cons, hco]
      rw [hcs]
    | some sv =>
      obtain ⟨s, v⟩ := sv
      have hcs : contribSensors (r :: rs) = s :: contribSensors rs := by
        simp [contribSensors, List.filterMap_cons, hco]
      rw [hcs, firstSeen_cons]
      have hks := keysOf_setK acc s v
      by_cases hin : s ∈ keysOf acc
      · rw [if_pos hin] at hks
        rw [hks]
        rw [List.filter_cons, if_neg (by simp [hin])]
        congr 1
        rw [← firstSeen_filter, List.filter_filter]
        apply List.filter_congr
        intro x _
        by_cases hx : x ∈ keysOf acc
        · simp [hx]
        · have : (x ≠ s : Bool) = true := by
            simp only [bne_iff_ne, ne_eq, decide_eq_true_eq]
            intro hc
            exact hx (hc ▸ hin)
          simp [hx, this]
      · rw [if_neg hin] at hks
        rw [hks]
        rw [List.filter_cons, if_pos (by simp [hin])]
        rw [List.append_assoc, List.singleton_append]
        congr 1
        congr 1
        rw [← firstSeen_filter, List.filter_filter]
        apply List.filter_congr
        intro x _
        by_cases hxs : x = s
        · subst hxs
          simp
        · have h1 : (x ≠ s : Bool) = true := by
            simp only [bne_iff_ne, ne_eq, decide_eq_true_eq]
            exact hxs
          by_cases hx : x ∈ keysOf acc
          · simp [hx, h1]
          · simp only [h1, Bool.and_true]
            have h2 : (decide (x ∉ keysOf acc)) = true := by
              simp [hx]
            have h3 : (decide (x ∉ keysOf acc ++ [s])) = true := by
              simp [hx, hxs]
            rw [h2, h3]

/-- C4 (amended): provided no record's sensor field is the literal string
"timestamp", the pivot produces one row per distinct grouping key (the
truthy timestamp field, else the time field) in first-seen order, each
holding the key under timestamp; a sensor reporting at the key (truthy
string sensor with a present value field) appears as a column carrying the
last value it reports there, a sensor not reporting is absent (no key, not
null), and the column order is first-seen order of the reporting sensors
after the timestamp column. -/
theorem claim4_pivot_amended (rows : List Obj)
    (hs : ∀ r ∈ rows, ∀ s v, contribOf r = some (s, v) → s ≠ "timestamp") :
    (pivotStage rows).map (fun o => getK o "timestamp") = firstSeen (rows.map rowKey)
    ∧ (∀ t s, s ≠ "timestamp" →
        getK (pivotRowAt rows t) s = lastContrib (rows.filter (fun r => rowKey r = t)) s)
    ∧ (∀ t, keysOf (pivotRowAt rows t)
        = (match t with
            | some _ => ["timestamp"]
            | none => ([] : List String))
          ++ firstSeen (contribSensors (rows.filter (fun r => rowKey r = t)))) := by
  have hts : ∀ (t : Option JSValue) (r : Obj), r ∈ rows.filter (fun r => rowKey r = t) →
      contribAt r "timestamp" = none := by
    intro t r hr
    have hrm := List.mem_of_mem_filter hr
    unfold contribAt
    cases hco : contribOf r with
    | none => rfl
    | some sv =>
      obtain ⟨s, v⟩ := sv
      simp only
      rw [if_neg (hs r hrm s v hco)]
  refine ⟨?_, ?_, ?_⟩
  · unfold pivotStage
    rw [List.map_map]
    have : ∀ t ∈ firstSeen (rows.map rowKey),
        ((fun o => getK o "timestamp") ∘ pivotRowAt rows) t = t := by
      intro t _
      simp only [Function.comp_apply]
      unfold pivotRowAt
      rw [getK_pivotFold]
      rw [lastContrib_eq_none _ _ (hts t)]
      cases t with
      | none => rfl
      | some v => simp [getK_cons]
    rw [List.map_congr_left this]
    simp
  · intro t s hst
    unfold pivotRowAt
    rw [getK_pivotFold]
    cases hl : lastContrib (rows.filter (fun r => rowKey r = t)) s with
    | some v => rfl
    | none =>
      cases t with
      | none => rfl
      | some v =>
        rw [getK_cons, if_neg (show ¬ "timestamp" = s from fun hc => hst hc.symm)]
        rfl
  · intro t
    unfold pivotRowAt
    rw [keysOf_pivotFold]
    cases t with
    | none =>
      show keysOf ([] : Obj) ++ _ = [] ++ _
      simp only [keysOf, List.map_nil, List.nil_append]
      apply List.filter_eq_self.mpr
      intro a _
      simp
    | some v =>
      show keysOf ([("timestamp", v)] : Obj) ++ _ = ["timestamp"] ++ _
      simp only [keysOf, List.map_cons, List.map_nil]
      congr 1
      apply List.filter_eq_self.mpr
      intro a ha
      have ham := mem_of_mem_firstSeen _ a ha
      obtain ⟨r, hr, hrc⟩ := List.mem_filterMap.mp ham
      have hane : a ≠ "timestamp" := by
        cases hco : contribOf r with
        | none => rw [hco] at hrc; cases hrc
        | some sv =>
          obtain ⟨s2, v2⟩ := sv
          rw [hco] at hrc
          simp at hrc
          have := hs r (List.mem_of_mem_filter hr) s2 v2 hco
          rw [← hrc]
          exact this
      simp [hane]

/-- Witness for C4 at the spec's example: records (time 100, sensor A,
value 5) and (time 100, sensor B, value 7) pivot to the single row
holding timestamp 100 and columns A and B in first-seen order. -/
theorem claim4_witness :
    pivotStage [[("time", .vNum 100), ("sensor", .vStr "A"), ("value", .vNum 5)],
        [("time", .vNum 100), ("sensor", .vStr "B"), ("value", .vNum 7)]]
      = [[("timestamp", .vNum 100), ("A", .vNum 5), ("B", .vNum 7)]]
    ∧ (pivotStage [[("time", .vNum 100), ("sensor", .vStr "A"), ("value", .vNum 5)],
        [("time", .vNum 100), ("sensor", .vStr "B"), ("value", .vNum 7)]]).map
          (fun o => getK o "timestamp")
      = firstSeen ([[("time", .vNum 100), ("sensor", .vStr "A"), ("value", .vNum 5)],
        [("time", .vNum 100), ("sensor", .vStr "B"), ("value", .vNum 7)]].map rowKey) := by
  constructor
  · simp [pivotStage, pivotRowAt, firstSeen_cons, firstSeen_nil, rowKey, getK_cons, getK,
      truthy, pivotStep, contribOf, hasK, vAt, setK, List.filter]
  · exact (claim4_pivot_amended _
      (by
        intro r hr s v hco
        simp only [List.mem_cons, List.not_mem_nil, or_false] at hr
        rcases hr with hr | hr
        · subst hr
          rw [show contribOf [("time", JSValue.vNum 100), ("sensor", JSValue.vStr "A"),
              ("value", JSValue.vNum 5)] = some ("A", JSValue.vNum 5) from by decide] at hco
          obtain ⟨h1, h2⟩ := Prod.mk.inj (Option.some.inj hco)
          rw [← h1]
          decide
        · subst hr
          rw [show contribOf [("time", JSValue.vNum 100), ("sensor", JSValue.vStr "B"),
              ("value", JSValue.vNum 7)] = some ("B", JSValue.vNum 7) from by decide] at hco
          obtain ⟨h1, h2⟩ := Prod.mk.inj (Option.some.inj hco)
          rw [← h1]
          decide)).1

/-- C4 counterexample: a record whose sensor is literally named
"timestamp" overwrites the grouping key in the pivoted row, so the claimed
shape (the key under timestamp plus one column per sensor) fails: the row
is exactly the single binding timestamp -> 5 and the key 100 is lost. -/
theorem claim4_counterexample :
    pivotStage [[("time", .vNum 100), ("sensor", .vStr "timestamp"), ("value", .vNum 5)]]
      = [[("timestamp", .vNum 5)]]
    ∧ .vNum 100 ∉ ([("timestamp", JSValue.vNum 5)] : Obj).map Prod.snd := by
  constructor
  · simp [pivotStage, pivotRowAt, firstSeen_cons, firstSeen_nil, rowKey, getK_cons, getK,
      truthy, pivotStep, contribOf, hasK, vAt, setK, List.filter]
  · decide

theorem renCond_sensor (am : Obj) : renCond am "sensor" = none := by
  simp [renCond]

/-- A key that is neither renamed inside `ks` nor the alias target of any
key of `ks` passes through the rename fold untouched. -/
theorem aliasFold_other (am row : Obj) : ∀ (ks : List String) (acc : Obj) (x : String),
    (x ∉ ks ∨ renCond am x = none) → (∀ k ∈ ks, renCond am k ≠ some x) →
    getK (ks.foldl (aliasStep am row) acc) x = getK acc x := by
  intro ks
  induction ks with
  | nil => intro acc x _ _; rfl
  | cons k0 ks ih =>
    intro acc x hx hk
    rw [List.foldl_cons]
    have htail := ih (aliasStep am row acc k0) x
      (by
        rcases hx with hx | hx
        · exact Or.inl (fun hc => hx (List.mem_cons_of_mem k0 hc))
        · exact Or.inr hx)
      (fun k hkm => hk k (List.mem_cons_of_mem k0 hkm))
    rw [htail]
    unfold aliasStep
    cases hr0 : renCond am k0 with
    | none => rfl
    | some a0 =>
      have hxk0 : x ≠ k0 := by
        intro hc
        subst hc
        rcases hx with hx | hx
        · exact hx (List.mem_cons_self x ks)
        · rw [hx] at hr0; cases hr0
      have hxa0 : x ≠ a0 := by
        intro hc
        subst hc
        exact hk k0 (List.mem_cons_self k0 ks) hr0
      rw [getK_delK]
      rw [if_neg hxk0]
      exact getK_setK_ne acc a0 x (vAt row k0) hxa0

/-- The alias key of a renamed member of `ks` carries the original row's
value after the fold, provided aliases are fresh (never row keys) and
injective. -/
theorem aliasFold_alias (am row : Obj)
    (hfresh : ∀ k2 ∈ keysOf row, ∀ a2, renCond am k2 = some a2 → a2 ∉ keysOf row)
    (hinj : ∀ k1 ∈ keysOf row, ∀ k2 ∈ keysOf row, ∀ a2,
      renCond am k1 = some a2 → renCond am k2 = some a2 → k1 = k2) :
    ∀ (ks : List String) (acc : Obj) (k : String) (a : String),
    ks ⊆ keysOf row → ks.Nodup → k ∈ ks → renCond am k = some a →
    getK (ks.foldl (aliasStep am row) acc) a = some (vAt row k) := by
  intro ks
  induction ks with
  | nil => intro acc k a _ _ hk _; exact absurd hk (List.not_mem_nil k)
  | cons k0 ks ih =>
    intro acc k a hsub hnd hk hr
    rw [List.foldl_cons]
    by_cases hkk : k = k0
    · subst hkk
      have hkrow : k ∈ keysOf row := hsub (List.mem_cons_self k ks)
      have hafresh : a ∉ keysOf row := hfresh k hkrow a hr
      rw [aliasFold_other am row ks (aliasStep am row acc k) a
        (Or.inl (fun hc => hafresh (hsub (List.mem_cons_of_mem k hc))))
        (fun k2 hk2 hc => by
          have hk2row : k2 ∈ keysOf row := hsub (List.mem_cons_of_mem k hk2)
          have := hinj k2 hk2row k hkrow a hc hr
          subst this
          exact (List.nodup_cons.mp hnd).1 hk2)]
      unfold aliasStep
      rw [hr]
      have hak : a ≠ k := fun hc => hafresh (hc ▸ hkrow)
      rw [getK_delK, if_neg hak]
      exact getK_setK_self acc a (vAt row k)
    · have hkm : k ∈ ks := by
        rcases List.mem_cons.mp hk with hc | hc
        · exact absurd hc hkk
        · exact hc
      exact ih (aliasStep am row acc k0) k a
        (fun y hy => hsub (List.mem_cons_of_mem k0 hy))
        (List.nodup_cons.mp hnd).2 hkm hr

/-- A renamed member of `ks` is absent after the fold (its key was
deleted and, aliases being fresh, never re-created). -/
theorem aliasFold_del (am row : Obj)
    (hfresh : ∀ k2 ∈ keysOf row, ∀ a2, renCond am k2 = some a2 → a2 ∉ keysOf row) :
    ∀ (ks : List String) (acc : Obj) (x : String) (ax : String),
    ks ⊆ keysOf row → ks.Nodup → x ∈ ks → renCond am x = some ax →
    getK (ks.foldl (aliasStep am row) acc) x = none := by
  intro ks
  induction ks with
  | nil => intro acc x ax _ _ hx _; exact absurd hx (List.not_mem_nil x)
  | cons k0 ks ih =>
    intro acc x ax hsub hnd hx hr
    rw [List.foldl_cons]
    by_cases hxk : x = k0
    · subst hxk
      have hxrow : x ∈ keysOf row := hsub (List.mem_cons_self x ks)
      rw [aliasFold_other am row ks (aliasStep am row acc x) x
        (Or.inl (List.nodup_cons.mp hnd).1)
        (fun k2 hk2 hc => by
          have hk2row : k2 ∈ keysOf row := hsub (List.mem_cons_of_mem x hk2)
          exact hfresh k2 hk2row x hc hxrow)]
      unfold aliasStep
      rw [hr, getK_delK, if_pos rfl]
    · have hxm : x ∈ ks := by
        rcases List.mem_cons.mp hx with hc | hc
        · exact absurd hc hxk
        · exact hc
      exact ih (aliasStep am row acc k0) x ax
        (fun y hy => hsub (List.mem_cons_of_mem k0 hy))
        (List.nodup_cons.mp hnd).2 hxm hr

/-- C6 (amended): provided the row's keys are distinct (as JS object keys
are) and the truthy alias names are pairwise distinct and distinct from
every key of the row, the alias stage renames each non-reserved key with a
truthy alias, moving the row's value from the original key (now absent) to
the alias key with no loss and no duplication; keys without an alias (and
the reserved time/timestamp keys) keep their values; and a long-format
row's truthy string sensor field is rewritten to its alias.  (Without the
distinctness proviso a value can be silently overwritten, see the
counterexample.) -/
theorem claim6_alias_amended (am row : Obj)
    (hnd : (keysOf row).Nodup)
    (hfresh : ∀ k ∈ keysOf row, ∀ a, renCond am k = some a → a ∉ keysOf row)
    (hinj : ∀ k1 ∈ keysOf row, ∀ k2 ∈ keysOf row, ∀ a,
      renCond am k1 = some a → renCond am k2 = some a → k1 = k2) :
    (∀ k ∈ keysOf row, ∀ a, renCond am k = some a →
      getK (aliasRow am row) a = getK row k ∧ getK (aliasRow am row) k = none)
    ∧ (∀ k ∈ keysOf row, renCond am k = none → k ≠ "sensor" →
      getK (aliasRow am row) k = getK row k)
    ∧ (∀ s a, getK row "sensor" = some (.vStr s) → s ≠ "" → amapAt am s = some a →
      getK (aliasRow am row) "sensor" = some (.vStr a)) := by
  refine ⟨?_, ?_, ?_⟩
  · intro k hk a hr
    constructor
    · unfold aliasRow
      rw [aliasFold_alias am row hfresh hinj (keysOf row) (sensorRewrite am row) k a
        (fun y hy => hy) hnd hk hr]
      exact (getK_eq_vAt_of_mem_keys hk).symm
    · unfold aliasRow
      exact aliasFold_del am row hfresh (keysOf row) (sensorRewrite am row) k a
        (fun y hy => hy) hnd hk hr
  · intro k hk hr hks
    unfold aliasRow
    rw [aliasFold_other am row (keysOf row) (sensorRewrite am row) k
      (Or.inr hr)
      (fun k2 hk2 hc => hfresh k2 hk2 k hc hk)]
    unfold sensorRewrite
    cases hgs : getK row "sensor" with
    | none => rfl
    | some v =>
      cases v with
      | vNull => rfl
      | vNum q => rfl
      | vStr s =>
        show getK (if s ≠ "" then
            (match amapAt am s with
             | some a => setK row "sensor" (.vStr a)
             | none => row)
          else row) k = getK row k
        by_cases hse : s ≠ ""
        · rw [if_pos hse]
          cases hma : amapAt am s with
          | none => rfl
          | some a => exact getK_setK_ne row "sensor" k (.vStr a) hks
        · rw [if_neg hse]
  · intro s a hgs hse hma
    have hsmem : "sensor" ∈ keysOf row := mem_keys_of_getK_eq_some hgs
    unfold aliasRow
    rw [aliasFold_other am row (keysOf row) (sensorRewrite am row) "sensor"
      (Or.inr (renCond_sensor am))
      (fun k2 hk2 hc => hfresh k2 hk2 "sensor" hc hsmem)]
    unfold sensorRewrite
    rw [hgs]
    show getK (if s ≠ "" then
        (match amapAt am s with
         | some a => setK row "sensor" (.vStr a)
         | none => row)
      else row) "sensor" = some (.vStr a)
    rw [if_pos hse, hma]
    exact getK_setK_self row "sensor" (.vStr a)

/-- Witness for C6 at the spec's example mapping S1 -> Temp: the pivoted
column key S1 moves its value 5 to Temp (S1 becomes absent), the reserved
timestamp key is untouched, and a long-format row's sensor field S1 is
rewritten to Temp. -/
theorem claim6_witness :
    (getK (aliasRow (aliasMapOf ⟨[⟨"S1", "Temp"⟩], []⟩) [("S1", .vNum 5)]) "Temp"
        = some (.vNum 5)
      ∧ getK (aliasRow (aliasMapOf ⟨[⟨"S1", "Temp"⟩], []⟩) [("S1", .vNum 5)]) "S1" = none)
    ∧ getK (aliasRow (aliasMapOf ⟨[⟨"S1", "Temp"⟩], []⟩)
        [("sensor", .vStr "S1")]) "sensor" = some (.vStr "Temp") := by
  constructor
  · have h := (claim6_alias_amended (aliasMapOf ⟨[⟨"S1", "Temp"⟩], []⟩) [("S1", .vNum 5)]
      (by decide)
      (by
        intro k hk a hr
        have hks : k = "S1" := by
          rcases List.mem_cons.mp hk with hc | hc
          · exact hc
          · exact absurd hc (List.not_mem_nil k)
        subst hks
        rw [show renCond (aliasMapOf ⟨[⟨"S1", "Temp"⟩], []⟩) "S1" = some "Temp" from by decide] at hr
        have ha := Option.some.inj hr
        rw [← ha]
        decide
      )
      (by
        intro k1 hk1 k2 hk2 a h1 h2
        have hks1 : k1 = "S1" := by
          rcases List.mem_cons.mp hk1 with hc | hc
          · exact hc
          · exact absurd hc (List.not_mem_nil k1)
        have hks2 : k2 = "S1" := by
          rcases List.mem_cons.mp hk2 with hc | hc
          · exact hc
          · exact absurd hc (List.not_mem_nil k2)
        rw [hks1, hks2])).1
      "S1" (by decide) "Temp" (by decide)
    have hval : getK ([("S1", JSValue.vNum 5)] : Obj) "S1" = some (.vNum 5) := by decide
    exact ⟨h.1.trans hval, h.2⟩
  · exact (claim6_alias_amended (aliasMapOf ⟨[⟨"S1", "Temp"⟩], []⟩) [("sensor", .vStr "S1")]
      (by decide)
      (by
        intro k hk a hr
        have hks : k = "sensor" := by
          rcases List.mem_cons.mp hk with hc | hc
          · exact hc
          · exact absurd hc (List.not_mem_nil k)
        subst hks
        rw [renCond_sensor] at hr
        cases hr)
      (by
        intro k1 hk1 k2 hk2 a h1 h2
        have hks1 : k1 = "sensor" := by
          rcases List.mem_cons.mp hk1 with hc | hc
          · exact hc
          · exact absurd hc (List.not_mem_nil k1)
        have hks2 : k2 = "sensor" := by
          rcases List.mem_cons.mp hk2 with hc | hc
          · exact hc
          · exact absurd hc (List.not_mem_nil k2)
        rw [hks1, hks2])).2.2
      "S1" "Temp" (by decide) (by decide) (by decide)

/-- C6 counterexample: the claim as stated (every mapping, every record
set, no loss) is false.  With sensors S1 and S2 both aliased to Temp the
pivoted row with S1 = 5 and S2 = 7 collapses to the single binding
Temp = 7 and the value 5 is lost; with the single alias S1 -> S2 the
rename overwrites the row's own S2 value 7 with 5 and then deletes S1,
losing 7. -/
theorem claim6_counterexample :
    aliasStage (aliasMapOf ⟨[⟨"S1", "Temp"⟩, ⟨"S2", "Temp"⟩], []⟩)
        [[("S1", .vNum 5), ("S2", .vNum 7)]]
      = [[("Temp", .vNum 7)]]
    ∧ .vNum 5 ∉ ([[("Temp", JSValue.vNum 7)]] : List Obj).flatten.map Prod.snd
    ∧ aliasStage (aliasMapOf ⟨[⟨"S1", "S2"⟩], []⟩)
        [[("S1", .vNum 5), ("S2", .vNum 7)]]
      = [[("S2", .vNum 5)]]
    ∧ .vNum 7 ∉ ([[("S2", JSValue.vNum 5)]] : List Obj).flatten.map Prod.snd := by
  refine ⟨by decide, by decide, by decide, by decide⟩

end Connector
